import Mathlib

/-!
Verification of the topolizer geometry, connection-layout and persistence core.

This file shallowly embeds the relevant JavaScript source into Lean:

* `src/frontend/src/scripts/shapes/shapeFactory.js` — `getShapeBounds`
  (the Shape Bounds Resolver);
* `src/frontend/src/scripts/connections/connectionManager.js` —
  `findClosestPoints`, `findBoundaryIntersection`, `updateShapeConnections`,
  `deleteShapeConnections`, `migrateExistingConnections`;
* the alignment/distribution module (`alignHorizontal`, `alignVertical`,
  `distributeHorizontal`, `distributeVertical`, `moveShapeToPosition`,
  its local `getShapeBounds`);
* the id-counter advancement of `loadTopology`
  (`src/frontend/src/scripts/topology/fileOperations.js`) and of
  `restoreAppState` (state restoration module).

JavaScript numbers are modelled as exact `ℚ` where the source only uses
field operations, and as `ℝ` where `Math.sqrt` / trigonometry is involved.
DOM element lookup (`document.getElementById`, `querySelectorAll`) is
modelled as lookup in explicit lists carried by a scene record; a DOM
`setAttribute` becomes a functional record update of the first list entry
with the matching id (`getElementById` resolves to the first element with
a given id).
-/

namespace Topolizer

/-- The bounding-box record returned by `getShapeBounds` in
`shapeFactory.js`: fields `x, y, width, height, left, right, top, bottom,
centerX, centerY`.  (The alignment module's local `getShapeBounds` returns
the same data minus `left`/`top`; by construction `left = x` and `top = y`
in every branch of both sources, so the single record serves both.) -/
structure Bounds (α : Type) where
  x : α
  y : α
  width : α
  height : α
  left : α
  right : α
  top : α
  bottom : α
  centerX : α
  centerY : α
  deriving Repr, DecidableEq

/-- Shape variants as dispatched by `shapeFactory.js`'s `getShapeBounds`:
`circle`, `ellipse`, `rect` and `line` elements carry their positional
attributes; a `g` element is a text group (translation plus its
`.text-background` rect, when present), an arrow group (its `.arrow-line`
endpoints — the factory always creates the line child), or a Cisco group
(translation plus the inner `svg`'s `width`/`height` attributes, when
present).  `other` stands for any unrecognized tag, for which the resolver
returns `null`. -/
inductive FactoryShape (α : Type) where
  | circle (cx cy r : α)
  | ellipse (cx cy rx ry : α)
  | rect (x y width height : α)
  | line (x1 y1 x2 y2 : α)
  | textGroup (tx ty : α) (bg : Option (α × α × α × α))
  | arrowGroup (x1 y1 x2 y2 : α)
  | ciscoGroup (tx ty : α) (svg : Option (α × α))
  | other
  deriving Repr, DecidableEq

variable {α : Type} [LinearOrderedField α]

/-- Embedding of `getShapeBounds` from `shapeFactory.js` (lines 317–520).
Branch order follows the source: `g` elements dispatch on
`data-shape-type` (`text` first — falling through to the Cisco branch when
no `.text-background` exists — then `arrow`, then Cisco with default size
60×60 plus 10 units of label room), then `line`, `circle`, `ellipse`,
`rect`; anything else returns `null` (`none`). -/
def getShapeBounds : FactoryShape α → Option (Bounds α)
  | .textGroup tx ty (some (bx, by_, bw, bh)) =>
      some { x := tx + bx, y := ty + by_, width := bw, height := bh,
             left := tx + bx, right := tx + bx + bw,
             top := ty + by_, bottom := ty + by_ + bh,
             centerX := tx + bx + bw / 2, centerY := ty + by_ + bh / 2 }
  | .textGroup tx ty none =>
      -- no `.text-background`: the source falls through to the Cisco-group
      -- branch, which finds no inner `svg` and uses the 60×70 default.
      some { x := tx, y := ty, width := 60, height := 70,
             left := tx, right := tx + 60, top := ty, bottom := ty + 70,
             centerX := tx + 30, centerY := ty + 35 }
  | .arrowGroup x1 y1 x2 y2 =>
      some { x := min x1 x2 - 10, y := min y1 y2 - 10,
             width := max x1 x2 - min x1 x2 + 20,
             height := max y1 y2 - min y1 y2 + 20,
             left := min x1 x2 - 10, right := max x1 x2 + 10,
             top := min y1 y2 - 10, bottom := max y1 y2 + 10,
             centerX := (min x1 x2 + max x1 x2) / 2,
             centerY := (min y1 y2 + max y1 y2) / 2 }
  | .ciscoGroup tx ty svg =>
      let w := match svg with | some (w, _) => w | none => 60
      let h := match svg with | some (_, h) => h + 10 | none => 70
      some { x := tx, y := ty, width := w, height := h,
             left := tx, right := tx + w, top := ty, bottom := ty + h,
             centerX := tx + w / 2, centerY := ty + h / 2 }
  | .line x1 y1 x2 y2 =>
      some { x := min x1 x2 - 5, y := min y1 y2 - 5,
             width := max x1 x2 - min x1 x2 + 10,
             height := max y1 y2 - min y1 y2 + 10,
             left := min x1 x2 - 5, right := max x1 x2 + 5,
             top := min y1 y2 - 5, bottom := max y1 y2 + 5,
             centerX := (x1 + x2) / 2, centerY := (y1 + y2) / 2 }
  | .circle cx cy r =>
      some { x := cx - r, y := cy - r, width := r * 2, height := r * 2,
             left := cx - r, right := cx + r, top := cy - r, bottom := cy + r,
             centerX := cx, centerY := cy }
  | .ellipse cx cy rx ry =>
      some { x := cx - rx, y := cy - ry, width := rx * 2, height := ry * 2,
             left := cx - rx, right := cx + rx, top := cy - ry, bottom := cy + ry,
             centerX := cx, centerY := cy }
  | .rect x y w h =>
      some { x := x, y := y, width := w, height := h,
             left := x, right := x + w, top := y, bottom := y + h,
             centerX := x + w / 2, centerY := y + h / 2 }
  | .other => none

/-- Translating a shape by `(dx, dy)` shifts exactly the positional
attributes `getShapeBounds` reads: `cx`/`cy` for circles and ellipses,
`x`/`y` for rects, both endpoints for lines and arrow lines, the
`translate` transform for text and Cisco groups. -/
def translateShape (dx dy : α) : FactoryShape α → FactoryShape α
  | .circle cx cy r => .circle (cx + dx) (cy + dy) r
  | .ellipse cx cy rx ry => .ellipse (cx + dx) (cy + dy) rx ry
  | .rect x y w h => .rect (x + dx) (y + dy) w h
  | .line x1 y1 x2 y2 => .line (x1 + dx) (y1 + dy) (x2 + dx) (y2 + dy)
  | .textGroup tx ty bg => .textGroup (tx + dx) (ty + dy) bg
  | .arrowGroup x1 y1 x2 y2 => .arrowGroup (x1 + dx) (y1 + dy) (x2 + dx) (y2 + dy)
  | .ciscoGroup tx ty svg => .ciscoGroup (tx + dx) (ty + dy) svg
  | .other => .other

/-- Translating a bounding box by `(dx, dy)`: every positional field
shifts, `width` and `height` stay. -/
def translateBounds (dx dy : α) (b : Bounds α) : Bounds α :=
  { x := b.x + dx, y := b.y + dy, width := b.width, height := b.height,
    left := b.left + dx, right := b.right + dx,
    top := b.top + dy, bottom := b.bottom + dy,
    centerX := b.centerX + dx, centerY := b.centerY + dy }

theorem min_add_const (a b c : α) : min (a + c) (b + c) = min a b + c := by
  rcases le_total a b with h | h
  · rw [min_eq_left h, min_eq_left (by linarith)]
  · rw [min_eq_right h, min_eq_right (by linarith)]

theorem max_add_const (a b c : α) : max (a + c) (b + c) = max a b + c := by
  rcases le_total a b with h | h
  · rw [max_eq_right h, max_eq_right (by linarith)]
  · rw [max_eq_left h, max_eq_left (by linarith)]

/-- Canonical bounds record from origin and size, as every branch of the
alignment module's `getShapeBounds` builds it:
`centerX = x + width/2`, `right = x + width`, and so on. -/
def mkBounds (x y w h : α) : Bounds α :=
  { x := x, y := y, width := w, height := h,
    left := x, right := x + w, top := y, bottom := y + h,
    centerX := x + w / 2, centerY := y + h / 2 }

/-! ## Alignment and distribution module

Embedding of the multi-shape alignment/distribution source file
(`alignHorizontal`, `alignVertical`, `distributeHorizontal`,
`distributeVertical` and their helpers `getShapeBounds`,
`moveShapeToPosition`, `updateSiblingLabel`).  All arithmetic is field
arithmetic, modelled over `ℚ`.  The module's local `getShapeBounds` mixes
`getBBox()` output with positional attributes; `getBBox` results that are
not attribute-derivable (a group's untransformed content box) are carried
as explicit fields of the shape variant. -/

/-- Replace the first list entry satisfying `p` by its image under `f`
(a DOM mutation of the element `getElementById`/`querySelector` returns). -/
def updateFirst {β : Type} (p : β → Bool) (f : β → β) : List β → List β
  | [] => []
  | a :: rest => if p a then f a :: rest else a :: updateFirst p f rest

/-- First list entry satisfying `p` (`document.getElementById` /
`querySelector` semantics: the first element in document order). -/
def findFirst {β : Type} (p : β → Bool) : List β → Option β
  | [] => none
  | a :: rest => if p a then some a else findFirst p rest

theorem findFirst_some {β : Type} {p : β → Bool} {l : List β} {a : β}
    (h : findFirst p l = some a) : p a = true := by
  induction l with
  | nil => simp [findFirst] at h
  | cons b rest ih =>
    by_cases hb : p b = true
    · simp [findFirst, hb] at h
      subst h
      exact hb
    · have hb' : p b = false := by simpa using hb
      simp [findFirst, hb'] at h
      exact ih h

namespace Align

/-- Shape variants as the alignment module distinguishes them:
`rect`/`circle`/`ellipse` elements (position from attributes, size from
the rendered box, which for these primitives equals the attribute-derived
size), `g` groups positioned by a `translate` transform (`t = none` when
the `transform` attribute is absent, as for factory-built arrow groups)
with their content box `(bx, by_, bw, bh)` from `getBBox()`, and bare
`line` elements whose box is the envelope of the two endpoints.  The
module's `moveShapeToPosition` has branches only for `g`, `circle`,
`ellipse` and `rect`; a `line`'s position is never written. -/
inductive AShape where
  | rect (x y w h : ℚ)
  | circle (cx cy r : ℚ)
  | ellipse (cx cy rx ry : ℚ)
  | group (t : Option (ℚ × ℚ)) (bx by_ bw bh : ℚ)
  | line (x1 y1 x2 y2 : ℚ)
  deriving Repr, DecidableEq

/-- A canvas shape element: DOM id plus geometry. -/
structure AShapeE where
  id : String
  geom : AShape
  deriving Repr, DecidableEq

/-- A sibling label of a basic shape (`text[data-shape-id=...]`):
its `data-position` attribute (empty string when absent — the source
applies `|| 'below'`) and current coordinates. -/
structure SibLabel where
  shapeId : String
  position : String
  x : ℚ
  y : ℚ
  deriving Repr, DecidableEq

/-- The state the alignment module reads and writes: the canvas shapes and
their sibling labels.  The connection re-route performed after each move
(`updateShapeConnections`) acts on the connection state and is modelled
with the connection-manager embedding below; the alignment claims quantify
over the shape and label state carried here. -/
structure AScene where
  shapes : List AShapeE
  labels : List SibLabel
  deriving Repr, DecidableEq

/-- `document.getElementById` for shapes: first entry with the given id. -/
def findShape (sc : AScene) (sid : String) : Option AShapeE :=
  findFirst (fun e => e.id == sid) sc.shapes

/-- `parentNode.querySelector('text[data-shape-id="..."]')`: first sibling
label owned by the given shape id. -/
def findSibLabel (sc : AScene) (sid : String) : Option SibLabel :=
  findFirst (fun l => l.shapeId == sid) sc.labels

/-- The alignment module's local `getShapeBounds` (part_006 lines 13–47):
starts from `getBBox()` plus any `translate` offset, then overrides `x`/`y`
from attributes for `circle`/`ellipse`/`rect`; returns
`{x, y, width, height, centerX, centerY, right, bottom}` (the `left`/`top`
fields of the record here duplicate `x`/`y`). -/
def aGetShapeBounds : AShape → Topolizer.Bounds ℚ
  | .rect x y w h => Topolizer.mkBounds x y w h
  | .circle cx cy r => Topolizer.mkBounds (cx - r) (cy - r) (r * 2) (r * 2)
  | .ellipse cx cy rx ry => Topolizer.mkBounds (cx - rx) (cy - ry) (rx * 2) (ry * 2)
  | .group t bx by_ bw bh =>
      let tx := (t.getD (0, 0)).1
      let ty := (t.getD (0, 0)).2
      Topolizer.mkBounds (bx + tx) (by_ + ty) bw bh
  | .line x1 y1 x2 y2 =>
      Topolizer.mkBounds (min x1 x2) (min y1 y2) (max x1 x2 - min x1 x2)
        (max y1 y2 - min y1 y2)

/-- The geometry write of `moveShapeToPosition` (part_006 lines 55–80):
groups get `transform = translate(x, y)`; circles/ellipses get
`cx = x + bounds.width/2`, `cy = y + bounds.height/2` (bounds recomputed
at call time); rects get `x`/`y`.  No branch handles a bare `line`, whose
geometry is therefore returned unchanged. -/
def moveGeom (g : AShape) (x y : ℚ) : AShape :=
  let b := aGetShapeBounds g
  match g with
  | .group _ bx by_ bw bh => .group (some (x, y)) bx by_ bw bh
  | .circle _ _ r => .circle (x + b.width / 2) (y + b.height / 2) r
  | .ellipse _ _ rx ry => .ellipse (x + b.width / 2) (y + b.height / 2) rx ry
  | .rect _ _ w h => .rect x y w h
  | .line x1 y1 x2 y2 => .line x1 y1 x2 y2

/-- `circle`, `ellipse` and `rect` tags — the shapes `updateSiblingLabel`
applies to. -/
def isBasic : AShape → Bool
  | .rect .. => true
  | .circle .. => true
  | .ellipse .. => true
  | _ => false

/-- `circle` or `ellipse` tag. -/
def isCircular : AShape → Bool
  | .circle .. => true
  | .ellipse .. => true
  | _ => false

/-- Target coordinates of a sibling label given the shape's bounds, per the
`switch (position)` of `updateSiblingLabel` (offset 20; the `default`
branch repeats the `below` case; for each branch the circular and
non-circular formulas are written separately in the source). -/
def sibLabelTarget (position : String) (circ : Bool) (b : Topolizer.Bounds ℚ) : ℚ × ℚ :=
  if position = "above" then
    (if circ then b.centerX else b.x + b.width / 2, if circ then b.y - 20 else b.y - 20)
  else if position = "below" then
    (if circ then b.centerX else b.x + b.width / 2,
     if circ then b.bottom + 20 else b.bottom + 20)
  else if position = "left" then
    (if circ then b.x - 20 else b.x - 20, if circ then b.centerY else b.y + b.height / 2)
  else if position = "right" then
    (if circ then b.right + 20 else b.right + 20,
     if circ then b.centerY else b.y + b.height / 2)
  else if position = "center" then
    (if circ then b.centerX else b.x + b.width / 2,
     if circ then b.centerY + 5 else b.y + b.height / 2 + 5)
  else
    (if circ then b.centerX else b.x + b.width / 2,
     if circ then b.bottom + 20 else b.bottom + 20)

/-- `updateSiblingLabel`: for basic shapes only, reposition the first
sibling label (if any) according to its `data-position` attribute
(`|| 'below'` when absent, here the empty string). -/
def updateSiblingLabelS (sc : AScene) (sid : String) : AScene :=
  match findShape sc sid with
  | none => sc
  | some e =>
    if isBasic e.geom then
      match findSibLabel sc sid with
      | none => sc
      | some lbl =>
        let pos := if lbl.position = "" then "below" else lbl.position
        let b := aGetShapeBounds e.geom
        let tgt := sibLabelTarget pos (isCircular e.geom) b
        { sc with
          labels := updateFirst (fun l => l.shapeId == sid)
            (fun l => { l with x := tgt.1, y := tgt.2 }) sc.labels }
    else sc

/-- `moveShapeToPosition` on a scene: write the geometry of the shape with
the given id (the element the caller obtained via `getElementById`), then
reposition its sibling label.  The subsequent `updateShapeConnections`
call re-routes connections and is modelled separately. -/
def moveShapeToPosition (sc : AScene) (sid : String) (x y : ℚ) : AScene :=
  match findShape sc sid with
  | none => sc
  | some _ =>
    let sc1 : AScene :=
      { sc with
        shapes := updateFirst (fun s => s.id == sid)
          (fun s => { s with geom := moveGeom s.geom x y }) sc.shapes }
    updateSiblingLabelS sc1 sid

/-- `Math.min(...list)` over a nonempty list (the callers guard list
length ≥ 2, so the empty case — `Infinity` in JS — is unreachable;
it is given the junk value 0). -/
def minList : List ℚ → ℚ
  | [] => 0
  | x :: xs => xs.foldl min x

/-- `Math.max(...list)` over a nonempty list (empty case unreachable). -/
def maxList : List ℚ → ℚ
  | [] => 0
  | x :: xs => xs.foldl max x

/-- `alignHorizontal(shapeIds, alignment)` (part_006 lines 138–177):
return unchanged when fewer than 2 ids, resolve ids dropping unresolved
ones (`filter(Boolean)`), return unchanged when fewer than 2 resolve;
otherwise compute the reference x (`left` → min of leading edges,
`right` → max of trailing edges, otherwise the center midpoint) and move
every resolved shape, keeping its precomputed `bound.y`. -/
def alignHorizontal (sc : AScene) (shapeIds : List String) (alignment : String) : AScene :=
  if shapeIds.length < 2 then sc
  else
    let shapes := shapeIds.filterMap (findShape sc)
    if shapes.length < 2 then sc
    else
      let bounds := shapes.map (fun e => aGetShapeBounds e.geom)
      let referenceX :=
        if alignment = "left" then minList (bounds.map (fun b => b.x))
        else if alignment = "right" then maxList (bounds.map (fun b => b.right))
        else (minList (bounds.map (fun b => b.x)) +
              maxList (bounds.map (fun b => b.right))) / 2
      (shapes.zip bounds).foldl
        (fun s eb =>
          let newX :=
            if alignment = "left" then referenceX
            else if alignment = "right" then referenceX - eb.2.width
            else referenceX - eb.2.width / 2
          moveShapeToPosition s eb.1.id newX eb.2.y)
        sc

/-- `alignVertical(shapeIds, alignment)` (part_006 lines 184–223),
symmetric to `alignHorizontal` with modes `top`/`bottom`/middle. -/
def alignVertical (sc : AScene) (shapeIds : List String) (alignment : String) : AScene :=
  if shapeIds.length < 2 then sc
  else
    let shapes := shapeIds.filterMap (findShape sc)
    if shapes.length < 2 then sc
    else
      let bounds := shapes.map (fun e => aGetShapeBounds e.geom)
      let referenceY :=
        if alignment = "top" then minList (bounds.map (fun b => b.y))
        else if alignment = "bottom" then maxList (bounds.map (fun b => b.bottom))
        else (minList (bounds.map (fun b => b.y)) +
              maxList (bounds.map (fun b => b.bottom))) / 2
      (shapes.zip bounds).foldl
        (fun s eb =>
          let newY :=
            if alignment = "top" then referenceY
            else if alignment = "bottom" then referenceY - eb.2.height
            else referenceY - eb.2.height / 2
          moveShapeToPosition s eb.1.id eb.2.x newY)
        sc

/-- The stateful placement walk of `distributeHorizontal`: thread
`currentX` through the sorted list, moving each shape to
`(currentX, bound.y)` and advancing by `bound.width + spacing`. -/
def distWalkH (spacing : ℚ) : List (AShapeE × Topolizer.Bounds ℚ) → AScene → ℚ → AScene
  | [], sc, _ => sc
  | eb :: rest, sc, currentX =>
      distWalkH spacing rest (moveShapeToPosition sc eb.1.id currentX eb.2.y)
        (currentX + eb.2.width + spacing)

/-- The `bounds` array of `distributeHorizontal` after its
`sort((a, b) => a.x - b.x)`: resolved shapes paired with their bounds,
sorted by current `x`.  `Array.prototype.sort` is stable; it is modelled
by the stable insertion sort. -/
def distSortedH (sc : AScene) (shapeIds : List String) :
    List (AShapeE × Topolizer.Bounds ℚ) :=
  ((shapeIds.filterMap (findShape sc)).map
    (fun e => (e, aGetShapeBounds e.geom))).insertionSort (fun a b => a.2.x ≤ b.2.x)

/-- `distributeHorizontal(shapeIds)` (part_006 lines 229–258): guard for
at least 3 resolved shapes, sort resolved shapes by current `x`
(`distSortedH`), compute
`spacing = (rightmost.right − leftmost.x − Σ width) / (n − 1)`,
then walk left to right placing each shape at the running x. -/
def distributeHorizontal (sc : AScene) (shapeIds : List String) : AScene :=
  if shapeIds.length < 3 then sc
  else if (shapeIds.filterMap (findShape sc)).length < 3 then sc
  else
    match distSortedH sc shapeIds with
    | [] => sc
    | first :: rest =>
      let leftmostX := first.2.x
      let rightmostX := ((first :: rest).getLastD first).2.right
      let totalWidth := (first :: rest).foldl (fun s eb => s + eb.2.width) 0
      let totalGap := rightmostX - leftmostX - totalWidth
      let spacing := totalGap / (((first :: rest).length : ℚ) - 1)
      distWalkH spacing (first :: rest) sc leftmostX

/-- The stateful placement walk of `distributeVertical`. -/
def distWalkV (spacing : ℚ) : List (AShapeE × Topolizer.Bounds ℚ) → AScene → ℚ → AScene
  | [], sc, _ => sc
  | eb :: rest, sc, currentY =>
      distWalkV spacing rest (moveShapeToPosition sc eb.1.id eb.2.x currentY)
        (currentY + eb.2.height + spacing)

/-- `distributeVertical(shapeIds)` (part_006 lines 264–293), symmetric to
`distributeHorizontal` along y. -/
def distributeVertical (sc : AScene) (shapeIds : List String) : AScene :=
  if shapeIds.length < 3 then sc
  else
    let shapes := shapeIds.filterMap (findShape sc)
    if shapes.length < 3 then sc
    else
      let bnds := shapes.map (fun e => (e, aGetShapeBounds e.geom))
      let sorted := bnds.insertionSort (fun a b => a.2.y ≤ b.2.y)
      match sorted with
      | [] => sc
      | first :: rest =>
        let topmostY := first.2.y
        let bottommostY := ((first :: rest).getLastD first).2.bottom
        let totalHeight := (first :: rest).foldl (fun s eb => s + eb.2.height) 0
        let totalGap := bottommostY - topmostY - totalHeight
        let spacing := totalGap / (((first :: rest).length : ℚ) - 1)
        distWalkV spacing (first :: rest) sc topmostY

/-- A shape whose position `moveShapeToPosition` actually establishes:
`rect`, `circle` and `ellipse` elements, and groups whose untransformed
content box has origin `(0, 0)` (then `translate(x, y)` puts the
recomputed bounds origin exactly at `(x, y)`).  Bare lines are never
moved, and a group with a nonzero content-box origin lands offset. -/
def positionable : AShape → Prop
  | .rect .. => True
  | .circle .. => True
  | .ellipse .. => True
  | .group _ bx by_ _ _ => bx = 0 ∧ by_ = 0
  | .line .. => False

/-- The sequence of `moveShapeToPosition` calls an alignment/distribution
pass issues, as (element, targetX, targetY) triples. -/
def applyMoves (sc : AScene) (moves : List (AShapeE × ℚ × ℚ)) : AScene :=
  moves.foldl (fun s m => moveShapeToPosition s m.1.id m.2.1 m.2.2) sc

/-- The move targets the `distributeHorizontal` walk issues, read off from
the running `currentX`. -/
def distTargets (spacing : ℚ) :
    List (AShapeE × Topolizer.Bounds ℚ) → ℚ → List (AShapeE × ℚ × ℚ)
  | [], _ => []
  | eb :: rest, cx =>
      (eb.1, cx, eb.2.y) :: distTargets spacing rest (cx + eb.2.width + spacing)

/-- Total advance of the distribution walk over a list of entries:
each entry advances `currentX` by its width plus the spacing. -/
def walkOffset (spacing : ℚ) : List (AShapeE × Topolizer.Bounds ℚ) → ℚ
  | [] => 0
  | eb :: rest => eb.2.width + spacing + walkOffset spacing rest

theorem findShape_id {sc : AScene} {sid : String} {e : AShapeE}
    (h : findShape sc sid = some e) : e.id = sid := by
  have := findFirst_some h
  simpa using this

theorem updateSiblingLabelS_shapes (sc : AScene) (sid : String) :
    (updateSiblingLabelS sc sid).shapes = sc.shapes := by
  unfold updateSiblingLabelS
  cases findShape sc sid with
  | none => rfl
  | some e =>
    simp only
    split
    · cases findSibLabel sc sid with
      | none => rfl
      | some lbl => rfl
    · rfl

theorem findFirst_updateFirst_ne (l : List AShapeE) (sid oid : String) (h : oid ≠ sid)
    (f : AShapeE → AShapeE) (hf : ∀ e, (f e).id = e.id) :
    findFirst (fun s => s.id == oid) (updateFirst (fun s => s.id == sid) f l)
      = findFirst (fun s => s.id == oid) l := by
  induction l with
  | nil => rfl
  | cons a rest ih =>
    by_cases hpa : a.id = sid
    · have h1 : ((f a).id == oid) = false := by
        simp [hf a, hpa]
        exact fun hc => absurd hc.symm h
      have h2 : ¬ sid = oid := fun hc => h hc.symm
      simp [updateFirst, findFirst, hpa, h1, h2]
    · have hpa' : (a.id == sid) = false := by simpa using hpa
      simp only [updateFirst, hpa', Bool.false_eq_true, if_false, findFirst]
      by_cases hq : (a.id == oid) = true <;> simp [hq, ih]

theorem findFirst_updateFirst_self (l : List AShapeE) (p : AShapeE → Bool)
    (f : AShapeE → AShapeE) (e : AShapeE) (hfind : findFirst p l = some e)
    (hfp : p (f e) = true) :
    findFirst p (updateFirst p f l) = some (f e) := by
  induction l with
  | nil => simp [findFirst] at hfind
  | cons a rest ih =>
    by_cases hpa : p a = true
    · simp [findFirst, hpa] at hfind
      subst hfind
      simp [updateFirst, findFirst, hpa, hfp]
    · have hpa' : p a = false := by simpa using hpa
      simp [findFirst, hpa'] at hfind
      simp [updateFirst, findFirst, hpa', ih hfind]

theorem findShape_move_other (sc : AScene) (sid oid : String) (h : oid ≠ sid) (x y : ℚ) :
    findShape (moveShapeToPosition sc sid x y) oid = findShape sc oid := by
  unfold moveShapeToPosition
  cases hf : findShape sc sid with
  | none => rfl
  | some e =>
    simp only
    rw [show ∀ sc' : AScene, findShape (updateSiblingLabelS sc' sid) oid = findShape sc' oid
        from fun sc' => by unfold findShape; rw [updateSiblingLabelS_shapes]]
    unfold findShape
    exact findFirst_updateFirst_ne sc.shapes sid oid h _ (fun _ => rfl)

theorem findShape_move_self (sc : AScene) (sid : String) (x y : ℚ) (e : AShapeE)
    (h : findShape sc sid = some e) :
    findShape (moveShapeToPosition sc sid x y) sid
      = some { e with geom := moveGeom e.geom x y } := by
  unfold moveShapeToPosition
  rw [h]
  simp only
  rw [show ∀ sc' : AScene, findShape (updateSiblingLabelS sc' sid) sid = findShape sc' sid
      from fun sc' => by unfold findShape; rw [updateSiblingLabelS_shapes]]
  unfold findShape
  exact findFirst_updateFirst_self sc.shapes _ _ e h (by simp [findShape_id h])

theorem aGetShapeBounds_moveGeom (g : AShape) (hg : positionable g) (x y : ℚ) :
    aGetShapeBounds (moveGeom g x y)
      = Topolizer.mkBounds x y (aGetShapeBounds g).width (aGetShapeBounds g).height := by
  cases g with
  | rect x0 y0 w h => rfl
  | circle cx cy r =>
      simp only [moveGeom, aGetShapeBounds, Topolizer.mkBounds, Topolizer.Bounds.mk.injEq]
      repeat' apply And.intro
      all_goals ring
  | ellipse cx cy rx ry =>
      simp only [moveGeom, aGetShapeBounds, Topolizer.mkBounds, Topolizer.Bounds.mk.injEq]
      repeat' apply And.intro
      all_goals ring
  | group t bx by_ bw bh =>
      obtain ⟨hbx, hby⟩ := hg
      subst hbx; subst hby
      simp only [moveGeom, aGetShapeBounds, Option.getD, Topolizer.mkBounds,
        Topolizer.Bounds.mk.injEq]
      repeat' apply And.intro
      all_goals ring
  | line x1 y1 x2 y2 => exact absurd hg (by simp [positionable])

theorem findShape_applyMoves_notin (sc : AScene) (moves : List (AShapeE × ℚ × ℚ))
    (sid : String) (h : sid ∉ moves.map (fun m => m.1.id)) :
    findShape (applyMoves sc moves) sid = findShape sc sid := by
  induction moves generalizing sc with
  | nil => rfl
  | cons m rest ih =>
    simp only [List.map_cons, List.mem_cons, not_or] at h
    unfold applyMoves
    rw [List.foldl_cons]
    rw [show (rest.foldl (fun s m => moveShapeToPosition s m.1.id m.2.1 m.2.2)
          (moveShapeToPosition sc m.1.id m.2.1 m.2.2))
        = applyMoves (moveShapeToPosition sc m.1.id m.2.1 m.2.2) rest from rfl]
    rw [ih _ h.2]
    exact findShape_move_other sc m.1.id sid h.1 m.2.1 m.2.2

/-- After a pass of moves over pairwise-distinct ids, each moved shape is
found with its bounds re-established at the commanded position, with
width and height unchanged. -/
theorem applyMoves_spec (moves : List (AShapeE × ℚ × ℚ)) (sc : AScene)
    (hnd : (moves.map (fun m => m.1.id)).Nodup)
    (hres : ∀ m ∈ moves, findShape sc m.1.id = some m.1 ∧ positionable m.1.geom) :
    ∀ m ∈ moves, ∃ e', findShape (applyMoves sc moves) m.1.id = some e' ∧
      aGetShapeBounds e'.geom
        = Topolizer.mkBounds m.2.1 m.2.2 (aGetShapeBounds m.1.geom).width
            (aGetShapeBounds m.1.geom).height := by
  induction moves generalizing sc with
  | nil => intro m hm; simp at hm
  | cons m0 rest ih =>
    intro m hm
    have hsc1 : applyMoves sc (m0 :: rest)
        = applyMoves (moveShapeToPosition sc m0.1.id m0.2.1 m0.2.2) rest := rfl
    rcases List.mem_cons.mp hm with hme | hmr
    · subst hme
      have hfind := (hres m (List.mem_cons_self _ _)).1
      have hpos := (hres m (List.mem_cons_self _ _)).2
      have hmoved := findShape_move_self sc m.1.id m.2.1 m.2.2 m.1 hfind
      have hnotin : m.1.id ∉ rest.map (fun m' => m'.1.id) := by
        simpa using (List.nodup_cons.mp hnd).1
      refine ⟨{ m.1 with geom := moveGeom m.1.geom m.2.1 m.2.2 }, ?_, ?_⟩
      · rw [hsc1, findShape_applyMoves_notin _ _ _ hnotin]
        exact hmoved
      · exact aGetShapeBounds_moveGeom m.1.geom hpos m.2.1 m.2.2
    · have hnd' := (List.nodup_cons.mp hnd).2
      have hres' : ∀ m' ∈ rest,
          findShape (moveShapeToPosition sc m0.1.id m0.2.1 m0.2.2) m'.1.id = some m'.1
            ∧ positionable m'.1.geom := by
        intro m' hm'
        have hne : m'.1.id ≠ m0.1.id := by
          intro hc
          apply (List.nodup_cons.mp hnd).1
          show m0.1.id ∈ List.map (fun m => m.1.id) rest
          rw [← hc]
          exact List.mem_map_of_mem (fun m => m.1.id) hm'
        rw [findShape_move_other sc m0.1.id m'.1.id hne m0.2.1 m0.2.2]
        exact hres m' (List.mem_cons_of_mem _ hm')
      rw [hsc1]
      exact ih _ hnd' hres' m hmr

theorem distWalkH_eq_applyMoves (spacing : ℚ) (l : List (AShapeE × Topolizer.Bounds ℚ))
    (sc : AScene) (cx : ℚ) :
    distWalkH spacing l sc cx = applyMoves sc (distTargets spacing l cx) := by
  induction l generalizing sc cx with
  | nil => rfl
  | cons eb rest ih =>
    show distWalkH spacing rest (moveShapeToPosition sc eb.1.id cx eb.2.y)
        (cx + eb.2.width + spacing) = _
    rw [ih]
    rfl

theorem distTargets_length (spacing : ℚ) (l : List (AShapeE × Topolizer.Bounds ℚ)) (cx : ℚ) :
    (distTargets spacing l cx).length = l.length := by
  induction l generalizing cx with
  | nil => rfl
  | cons eb rest ih => simp [distTargets, ih]

theorem distTargets_map_fst (spacing : ℚ) (l : List (AShapeE × Topolizer.Bounds ℚ)) (cx : ℚ) :
    (distTargets spacing l cx).map (fun m => m.1) = l.map (fun eb => eb.1) := by
  induction l generalizing cx with
  | nil => rfl
  | cons eb rest ih => simp [distTargets, ih]

theorem distTargets_get (spacing : ℚ) (l : List (AShapeE × Topolizer.Bounds ℚ)) :
    ∀ (cx : ℚ) (i : ℕ) (hi : i < l.length),
      (distTargets spacing l cx).get ⟨i, by rw [distTargets_length]; exact hi⟩
        = ((l.get ⟨i, hi⟩).1, cx + walkOffset spacing (l.take i), (l.get ⟨i, hi⟩).2.y) := by
  induction l with
  | nil => intro cx i hi; simp at hi
  | cons eb rest ih =>
    intro cx i hi
    cases i with
    | zero => simp [distTargets, walkOffset]
    | succ n =>
      have hn : n < rest.length := by simpa using hi
      have := ih (cx + eb.2.width + spacing) n hn
      simp only [distTargets, List.get_cons_succ, List.take_succ_cons, walkOffset]
      rw [this]
      simp only [Prod.mk.injEq]
      refine ⟨trivial, by ring, trivial⟩

theorem walkOffset_take_succ (spacing : ℚ) :
    ∀ (l : List (AShapeE × Topolizer.Bounds ℚ)) (i : ℕ) (hi : i < l.length),
      walkOffset spacing (l.take (i + 1))
        = walkOffset spacing (l.take i) + (l.get ⟨i, hi⟩).2.width + spacing := by
  intro l
  induction l with
  | nil => intro i hi; simp at hi
  | cons eb rest ih =>
    intro i hi
    cases i with
    | zero => simp [walkOffset]
    | succ n =>
      have hn : n < rest.length := by simpa using hi
      simp only [List.take_succ_cons, walkOffset, List.get_cons_succ]
      rw [ih n hn]
      ring

theorem distSortedH_perm (sc : AScene) (ids : List String) :
    (distSortedH sc ids).Perm
      ((ids.filterMap (findShape sc)).map (fun e => (e, aGetShapeBounds e.geom))) :=
  List.perm_insertionSort _ _

theorem distSortedH_snd (sc : AScene) (ids : List String) :
    ∀ eb ∈ distSortedH sc ids, eb.2 = aGetShapeBounds eb.1.geom := by
  intro eb heb
  have hm := (distSortedH_perm sc ids).mem_iff.mp heb
  obtain ⟨e, -, heq⟩ := List.mem_map.mp hm
  rw [← heq]

theorem zip_map_self {β γ : Type} (l : List β) (f : β → γ) :
    l.zip (l.map f) = l.map (fun a => (a, f a)) := by
  induction l with
  | nil => rfl
  | cons a rest ih => simp [ih]

theorem resolve_map_id (sc : AScene) (ids : List String)
    (hres : ∀ id ∈ ids, ∃ e, findShape sc id = some e ∧ positionable e.geom) :
    (ids.filterMap (findShape sc)).map (fun e => e.id) = ids := by
  induction ids with
  | nil => rfl
  | cons id rest ih =>
    obtain ⟨e, he, -⟩ := hres id (List.mem_cons_self _ _)
    rw [List.filterMap_cons, he]
    simp only [List.map_cons]
    rw [findShape_id he, ih (fun i hi => hres i (List.mem_cons_of_mem _ hi))]

theorem resolve_mem (sc : AScene) (ids : List String)
    (hres : ∀ id ∈ ids, ∃ e, findShape sc id = some e ∧ positionable e.geom) :
    ∀ e ∈ ids.filterMap (findShape sc),
      findShape sc e.id = some e ∧ positionable e.geom := by
  intro e he
  obtain ⟨id, hid, hfe⟩ := List.mem_filterMap.mp he
  obtain ⟨e', he', hp'⟩ := hres id hid
  have : e' = e := by rw [he'] at hfe; injection hfe
  subst this
  exact ⟨by rw [findShape_id he']; exact he', hp'⟩

/-- The reference coordinate of center-mode horizontal alignment: the
midpoint of the resolved shapes' minimum leading edge and maximum
trailing edge. -/
def centerRefX (sc : AScene) (shapeIds : List String) : ℚ :=
  let shapes := shapeIds.filterMap (findShape sc)
  let bounds := shapes.map (fun e => aGetShapeBounds e.geom)
  (minList (bounds.map (fun b => b.x)) + maxList (bounds.map (fun b => b.right))) / 2

theorem alignHorizontal_center_eq (sc : AScene) (ids : List String)
    (hg1 : ¬ ids.length < 2)
    (hg2 : ¬ (ids.filterMap (findShape sc)).length < 2) :
    alignHorizontal sc ids "center"
      = applyMoves sc ((ids.filterMap (findShape sc)).map
          (fun e => (e, centerRefX sc ids - (aGetShapeBounds e.geom).width / 2,
                     (aGetShapeBounds e.geom).y))) := by
  unfold alignHorizontal applyMoves centerRefX
  rw [if_neg hg1]
  simp only [if_neg hg2]
  rw [zip_map_self, List.foldl_map, List.foldl_map]
  simp only [List.map_map, Function.comp]
  rfl

end Align

/-! ## Persistence: id-counter restoration

Embedding of the counter-advance step at the end of `loadTopology`
(`fileOperations.js` lines 340–360) and the counter restore of
`restoreAppState` (state-restoration module lines 34–46). -/

namespace Restore

/-- `parseInt` on a nonempty run of decimal digits. -/
def parseDigits (ds : List Char) : Nat :=
  ds.foldl (fun n c => n * 10 + (c.toNat - 48)) 0

/-- JS `str.match(/‹pat›(\d+)/)` followed by `parseInt` of the capture:
scan for the first occurrence of the literal pattern followed by at least
one digit and parse the maximal digit run after it; `none` when the
pattern never matches. -/
def matchNumAux (pat : List Char) : List Char → Option Nat
  | [] => none
  | c :: rest =>
    if pat.isPrefixOf (c :: rest) then
      let ds := ((c :: rest).drop pat.length).takeWhile Char.isDigit
      if ds.isEmpty then matchNumAux pat rest
      else some (parseDigits ds)
    else matchNumAux pat rest

/-- `shape.id.match(/shape-(\d+)/)` + `parseInt`. -/
def matchShapeNum (s : String) : Option Nat := matchNumAux "shape-".toList s.toList

/-- `conn.id.match(/connection-(\d+)/)` + `parseInt`. -/
def matchConnectionNum (s : String) : Option Nat :=
  matchNumAux "connection-".toList s.toList

/-- The running maximum of the numeric suffixes in `ids`
(the `reduce((max, x) => ..., 0)` of `loadTopology`). -/
def maxSuffix (pat : List Char) (ids : List String) (m0 : Nat) : Nat :=
  ids.foldl (fun m id =>
    match matchNumAux pat id.toList with
    | some n => max m n
    | none => m) m0

/-- The counter-advance step at the end of `loadTopology`: bump the
counter to `maxId + 1` when the maximal restored suffix is positive and
at least the current counter, else leave it. -/
def advanceCounter (pat : List Char) (ids : List String) (counter : Nat) : Nat :=
  let maxId := maxSuffix pat ids 0
  if 0 < maxId ∧ counter ≤ maxId then maxId + 1 else counter

/-- The counter restore of `restoreAppState`: adopt the persisted value
verbatim when one was saved, otherwise keep the in-memory counter. -/
def restoreCounter (saved : Option Nat) (counter : Nat) : Nat :=
  match saved with
  | some v => v
  | none => counter

end Restore

/-! ## Connection manager

Embedding of `connectionManager.js`: the anchor geometry
(`findClosestPoints`, `findBoundaryIntersection`), the per-shape
connection update (`updateShapeConnections`), deletion
(`deleteShapeConnections` and the shape-delete callers), and the legacy
migration (`migrateExistingConnections`).  Coordinates are modelled as
exact reals (`ℝ`): the source normalizes direction vectors with
`Math.sqrt` and projects labels with `Math.cos`/`Math.sin` of
`Math.atan2`, so the carrier must contain square roots. -/

namespace Conn

/-- JS division whose denominator may be zero: for the nonnegative
numerators in use (half-extents over absolute values), `a / 0` is
`Infinity`, represented as `none`.  (A `0 / 0`, JS `NaN`, arises only for
a zero-size box, which the claims exclude.) -/
noncomputable def divInf (a b : ℝ) : Option ℝ :=
  if b = 0 then none else some (a / b)

/-- `Math.min` over two values that may be `Infinity` (`none`). -/
def minInf (x y : Option ℝ) : Option ℝ :=
  match x, y with
  | none, y => y
  | some a, none => some a
  | some a, some b => some (min a b)

/-- `findBoundaryIntersection(bounds, center, dx, dy)` (connectionManager
lines 609–635): normalize the direction, take the first of the two edge
crossings `t = min(halfHeight/|ndy|, halfWidth/|ndx|)` and step `t` from
the center; a zero-length direction returns the center itself.  The
`none` arm of the final match is unreachable when the direction is
nonzero (at least one candidate is finite). -/
noncomputable def findBoundaryIntersection (bounds : Topolizer.Bounds ℝ) (center : ℝ × ℝ)
    (dx dy : ℝ) : ℝ × ℝ :=
  let halfWidth := bounds.width / 2
  let halfHeight := bounds.height / 2
  let length := Real.sqrt (dx * dx + dy * dy)
  if length = 0 then center
  else
    let normalizedDx := dx / length
    let normalizedDy := dy / length
    let tHorizontal := divInf halfHeight |normalizedDy|
    let tVertical := divInf halfWidth |normalizedDx|
    match minInf tHorizontal tVertical with
    | some t => (center.1 + normalizedDx * t, center.2 + normalizedDy * t)
    | none => center

/-- `findClosestPoints(sourceBounds, targetBounds)` (lines 575–599):
centers from `x + width/2`, direction from source center to target
center, and a boundary intersection on each box (the target with the
direction reversed). -/
noncomputable def findClosestPoints (sourceBounds targetBounds : Topolizer.Bounds ℝ) :
    (ℝ × ℝ) × (ℝ × ℝ) :=
  let sourceCenter : ℝ × ℝ :=
    (sourceBounds.x + sourceBounds.width / 2, sourceBounds.y + sourceBounds.height / 2)
  let targetCenter : ℝ × ℝ :=
    (targetBounds.x + targetBounds.width / 2, targetBounds.y + targetBounds.height / 2)
  let dx := targetCenter.1 - sourceCenter.1
  let dy := targetCenter.2 - sourceCenter.2
  (findBoundaryIntersection sourceBounds sourceCenter dx dy,
   findBoundaryIntersection targetBounds targetCenter (-dx) (-dy))

/-- `(Math.cos(Math.atan2(y, x)), Math.sin(Math.atan2(y, x)))`: the unit
vector in the direction of `(x, y)`; JS `atan2(0, 0) = 0`, giving
`(1, 0)`. -/
noncomputable def cosSinAtan2 (y x : ℝ) : ℝ × ℝ :=
  if x = 0 ∧ y = 0 then (1, 0)
  else (x / Real.sqrt (x * x + y * y), y / Real.sqrt (x * x + y * y))

/-- A connection label element (`text`): its DOM id, coordinates, the
constraint-circle attributes `data-constraint-center-x`/`-y` (`none` when
the attribute is absent, in which case `parseFloat` yields `NaN` and the
source takes its fallback branch) and `data-constraint-radius`. -/
structure CMLabel where
  id : String
  x : ℝ
  y : ℝ
  ccx : Option ℝ
  ccy : Option ℝ
  radius : Option ℝ

/-- A connection group: id, `data-source`/`data-target` shape ids, the
three `data-*-label-id` attributes (`none` when absent), and the
`.connection-line` endpoints.  (The `.connection-hit-target` duplicates
the line's endpoints verbatim on every update and is not carried
separately.) -/
structure CMConn where
  id : String
  source : String
  target : String
  sourceLabelId : Option String
  targetLabelId : Option String
  centerLabelId : Option String
  x1 : ℝ
  y1 : ℝ
  x2 : ℝ
  y2 : ℝ

/-- A canvas shape as the connection manager sees it: id, geometry (for
`getShapeBounds`), and the back-reference set `dataset.connections`.  The
DOM stores that set as a comma-delimited string `"id1,id2,"`; every
reader applies `split(',').filter(id => id)` and every writer appends
`id + ','`, so the field carries the split-and-filtered list. -/
structure CMShape where
  id : String
  geom : Topolizer.FactoryShape ℝ
  connections : List String

/-- The document state the connection manager reads and writes. -/
structure CMScene where
  shapes : List CMShape
  conns : List CMConn
  labels : List CMLabel

/-- `document.getElementById` for shapes. -/
def findCMShape (sc : CMScene) (sid : String) : Option CMShape :=
  Topolizer.findFirst (fun s => s.id == sid) sc.shapes

/-- `document.getElementById` for connections. -/
def findConn (sc : CMScene) (cid : String) : Option CMConn :=
  Topolizer.findFirst (fun c => c.id == cid) sc.conns

/-- `document.getElementById` for labels. -/
def findLabel (sc : CMScene) (lid : String) : Option CMLabel :=
  Topolizer.findFirst (fun l => l.id == lid) sc.labels

/-- Remove the first list entry satisfying `p` (`element.remove()` on the
element a lookup returned). -/
def removeFirst {β : Type} (p : β → Bool) : List β → List β
  | [] => []
  | a :: rest => if p a then rest else a :: removeFirst p rest

/-- JS truthiness of a `getAttribute` result: `null` and the empty string
are falsy. -/
def truthy : Option String → Bool
  | none => false
  | some s => if s = "" then false else true

/-- `parseFloat(label.getAttribute('data-constraint-radius')) || 60`:
a missing attribute (`NaN`) and the value 0 are both falsy and fall back
to the default radius 60. -/
noncomputable def radiusOrDefault : Option ℝ → ℝ
  | none => 60
  | some v => if v = 0 then 60 else v

/-- The body of the per-label update in `updateShapeConnections`
(lines 704–733 for the source label, mirrored for the target label):
capture the old constraint center, write the new one, and re-place the
label on its constraint circle at the angle of its current position
relative to the old center — falling back to the supplied raw connection
direction when no old center was stored. -/
noncomputable def repositionEndLabel (l : CMLabel) (newCenter fallbackDir : ℝ × ℝ) :
    CMLabel :=
  let dir : ℝ × ℝ :=
    match l.ccx, l.ccy with
    | some ox, some oy => (l.x - ox, l.y - oy)
    | _, _ => fallbackDir
  let u := cosSinAtan2 dir.2 dir.1
  let r := radiusOrDefault l.radius
  { l with ccx := some newCenter.1, ccy := some newCenter.2,
           x := newCenter.1 + u.1 * r, y := newCenter.2 + u.2 * r }

/-- Update a label element in place. -/
def updateLabelFirst (sc : CMScene) (lid : String) (f : CMLabel → CMLabel) : CMScene :=
  { sc with labels := Topolizer.updateFirst (fun l => l.id == lid) f sc.labels }

/-- The line (and hit-target) endpoint rewrite of `updateShapeConnections`
(lines 682–698). -/
def updateConnLine (sc : CMScene) (cid : String) (pts : (ℝ × ℝ) × (ℝ × ℝ)) : CMScene :=
  let f : CMConn → CMConn := fun c =>
    { c with x1 := pts.1.1, y1 := pts.1.2, x2 := pts.2.1, y2 := pts.2.2 }
  { sc with conns := Topolizer.updateFirst (fun c => c.id == cid) f sc.conns }

/-- One end-label block of `updateShapeConnections` (lines 704–733 for
the source label, 735–766 for the target label): when the label-id
attribute is truthy and the label element exists, reposition it about the
given new center with the given raw-connection fallback direction. -/
noncomputable def maybeUpdateEndLabel (sc : CMScene) (lid? : Option String)
    (center fallbackDir : ℝ × ℝ) : CMScene :=
  if truthy lid? then
    match lid? with
    | some lid =>
      match findLabel sc lid with
      | some _ => updateLabelFirst sc lid (fun l => repositionEndLabel l center fallbackDir)
      | none => sc
    | none => sc
  else sc

/-- The center-label block of `updateShapeConnections` (lines 767–775):
the center label is put at the raw midpoint of the two anchor points. -/
def maybeUpdateCenterLabel (sc : CMScene) (lid? : Option String) (pt : ℝ × ℝ) : CMScene :=
  if truthy lid? then
    match lid? with
    | some lid =>
      match findLabel sc lid with
      | some _ => updateLabelFirst sc lid (fun l => { l with x := pt.1, y := pt.2 })
      | none => sc
    | none => sc
  else sc

/-- One iteration of the `forEach` in `updateShapeConnections`
(lines 648–784): resolve the connection and both endpoint shapes
(returning unchanged when one is missing), recompute the anchor points,
rewrite the line (and hit-target) endpoints, then reposition the source,
target and center labels in that order.  A `null` result of
`getShapeBounds` would make the source throw on property access; the
embedding leaves the connection unchanged and the theorems assume
boundable endpoint shapes. -/
noncomputable def updateOneConnection (sc : CMScene) (cid : String) : CMScene :=
  match findConn sc cid with
  | none => sc
  | some conn =>
    match findCMShape sc conn.source, findCMShape sc conn.target with
    | some ss, some ts =>
      match Topolizer.getShapeBounds ss.geom, Topolizer.getShapeBounds ts.geom with
      | some sb, some tb =>
        let pts := findClosestPoints sb tb
        let sourceCenter : ℝ × ℝ := (sb.x + sb.width / 2, sb.y + sb.height / 2)
        let targetCenter : ℝ × ℝ := (tb.x + tb.width / 2, tb.y + tb.height / 2)
        let centerPoint : ℝ × ℝ := ((pts.1.1 + pts.2.1) / 2, (pts.1.2 + pts.2.2) / 2)
        let sc1 := updateConnLine sc cid pts
        let sc2 := maybeUpdateEndLabel sc1 conn.sourceLabelId sourceCenter
          (targetCenter.1 - sourceCenter.1, targetCenter.2 - sourceCenter.2)
        let sc3 := maybeUpdateEndLabel sc2 conn.targetLabelId targetCenter
          (sourceCenter.1 - targetCenter.1, sourceCenter.2 - targetCenter.2)
        maybeUpdateCenterLabel sc3 conn.centerLabelId centerPoint
      | _, _ => sc
    | _, _ => sc

/-- `updateShapeConnections(shape)` (lines 641–784): iterate the shape's
back-reference set, re-routing each incident connection.  (The caller
passes a live element; an unresolvable id returns the scene unchanged.) -/
noncomputable def updateShapeConnections (sc : CMScene) (sid : String) : CMScene :=
  match findCMShape sc sid with
  | none => sc
  | some s => s.connections.foldl updateOneConnection sc

/-- `if (id) { const el = getElementById(id); if (el) el.remove(); }` for
a label id attribute. -/
def removeLabelIfPresent (sc : CMScene) (lid? : Option String) : CMScene :=
  if truthy lid? then
    match lid? with
    | some lid =>
      match findLabel sc lid with
      | some _ => { sc with labels := removeFirst (fun l => l.id == lid) sc.labels }
      | none => sc
    | none => sc
  else sc

/-- One iteration of the `forEach` in `deleteShapeConnections`
(lines 798–822): if the connection element exists, capture its three
label ids, remove the connection, then remove each existing label.
Nothing here touches any shape's `dataset.connections`. -/
def deleteOneConnection (sc : CMScene) (cid : String) : CMScene :=
  match findConn sc cid with
  | none => sc
  | some conn =>
    let sc1 : CMScene := { sc with conns := removeFirst (fun c => c.id == cid) sc.conns }
    let sc2 := removeLabelIfPresent sc1 conn.sourceLabelId
    let sc3 := removeLabelIfPresent sc2 conn.targetLabelId
    removeLabelIfPresent sc3 conn.centerLabelId

/-- `deleteShapeConnections(shape)` (lines 791–823): iterate the shape's
back-reference set and delete each incident connection with its labels. -/
def deleteShapeConnections (sc : CMScene) (sid : String) : CMScene :=
  match findCMShape sc sid with
  | none => sc
  | some s => s.connections.foldl deleteOneConnection sc

/-- Shape deletion as the callers perform it (keyboard handler,
selection-mode multi-delete): `deleteShapeConnections(shape)` followed by
`shape.remove()`.  (The keyboard handler also removes the shape's sibling
label, which lives outside the connection-manager state.) -/
def deleteShape (sc : CMScene) (sid : String) : CMScene :=
  let sc1 := deleteShapeConnections sc sid
  { sc1 with shapes := removeFirst (fun s => s.id == sid) sc1.shapes }

/-- `label-<connectionId>-<role>` existence check used by the migration. -/
def labelExists (sc : CMScene) (lid : String) : Bool :=
  (findLabel sc lid).isSome

/-- The body of the `forEach` in `migrateExistingConnections`
(lines 835–864): connections already carrying both the source and target
label-id attributes are skipped; otherwise each of the three label-id
attributes is written when a label with the conventional id
`label-<connectionId>-<role>` exists. -/
def migrateConn (e : String → Bool) (c : CMConn) : CMConn :=
  if truthy c.sourceLabelId && truthy c.targetLabelId then c
  else
    let c1 := if e ("label-" ++ c.id ++ "-source")
      then { c with sourceLabelId := some ("label-" ++ c.id ++ "-source") } else c
    let c2 := if e ("label-" ++ c.id ++ "-target")
      then { c1 with targetLabelId := some ("label-" ++ c.id ++ "-target") } else c1
    if e ("label-" ++ c.id ++ "-center")
      then { c2 with centerLabelId := some ("label-" ++ c.id ++ "-center") } else c2

/-- `migrateExistingConnections()` (lines 829–872): run `migrateConn` on
every `.connection` element.  Labels and shapes are untouched (the
`saveAppState()` call persists, it does not mutate the scene). -/
def migrateExistingConnections (sc : CMScene) : CMScene :=
  { sc with conns := sc.conns.map (migrateConn (labelExists sc)) }

end Conn

end Topolizer

open Topolizer in
/-- C9: for every shape kind handled by the bounds resolver and every
translation `(dx, dy)`, the bounding box of the translated shape is the
translated bounding box: every positional field (`x`, `y`, `left`,
`right`, `top`, `bottom`, `centerX`, `centerY`) shifts by the delta while
`width` and `height` are unchanged — bounds are computed solely from the
shape's current positional attributes. -/
theorem bounds_translate_equivariant (s : FactoryShape ℚ) (dx dy : ℚ) :
    getShapeBounds (translateShape dx dy s) =
      (getShapeBounds s).map (translateBounds dx dy) := by
  cases s with
  | textGroup tx ty bg =>
      cases bg with
      | none =>
          simp only [getShapeBounds, translateShape, translateBounds, Option.map_some',
            Option.some.injEq, Bounds.mk.injEq]
          repeat' apply And.intro
          all_goals ring
      | some b =>
          obtain ⟨bx, by_, bw, bh⟩ := b
          simp only [getShapeBounds, translateShape, translateBounds, Option.map_some',
            Option.some.injEq, Bounds.mk.injEq]
          repeat' apply And.intro
          all_goals ring
  | arrowGroup x1 y1 x2 y2 =>
      simp only [getShapeBounds, translateShape, translateBounds, Option.map_some',
        Option.some.injEq, Bounds.mk.injEq, min_add_const, max_add_const]
      repeat' apply And.intro
      all_goals ring
  | ciscoGroup tx ty svg =>
      cases svg with
      | none =>
          simp only [getShapeBounds, translateShape, translateBounds, Option.map_some',
            Option.some.injEq, Bounds.mk.injEq]
          repeat' apply And.intro
          all_goals ring
      | some wh =>
          obtain ⟨w, h⟩ := wh
          simp only [getShapeBounds, translateShape, translateBounds, Option.map_some',
            Option.some.injEq, Bounds.mk.injEq]
          repeat' apply And.intro
          all_goals ring
  | line x1 y1 x2 y2 =>
      simp only [getShapeBounds, translateShape, translateBounds, Option.map_some',
        Option.some.injEq, Bounds.mk.injEq, min_add_const, max_add_const]
      repeat' apply And.intro
      all_goals ring
  | circle cx cy r =>
      simp only [getShapeBounds, translateShape, translateBounds, Option.map_some',
        Option.some.injEq, Bounds.mk.injEq]
      repeat' apply And.intro
      all_goals ring
  | ellipse cx cy rx ry =>
      simp only [getShapeBounds, translateShape, translateBounds, Option.map_some',
        Option.some.injEq, Bounds.mk.injEq]
      repeat' apply And.intro
      all_goals ring
  | rect x y w h =>
      simp only [getShapeBounds, translateShape, translateBounds, Option.map_some',
        Option.some.injEq, Bounds.mk.injEq]
      repeat' apply And.intro
      all_goals ring
  | other => simp [getShapeBounds, translateShape]

section AlignClaims

open Topolizer Topolizer.Align

/-- C4 (counterexample): horizontal-center alignment does not equalize
`centerX` for every set of resolvable shapes.  A bare `line` element is
resolvable, but `moveShapeToPosition` has no branch for it, so it stays
put: aligning a rect at (0,0,50,50) with a line from (100,0) to (150,50)
leaves the rect at centerX 75 and the line at centerX 125. -/
theorem align_center_line_counterexample :
    (findShape (alignHorizontal
        ⟨[⟨"shape-1", .rect 0 0 50 50⟩, ⟨"shape-2", .line 100 0 150 50⟩], []⟩
        ["shape-1", "shape-2"] "center") "shape-1").map
        (fun e => (aGetShapeBounds e.geom).centerX) = some 75
    ∧ (findShape (alignHorizontal
        ⟨[⟨"shape-1", .rect 0 0 50 50⟩, ⟨"shape-2", .line 100 0 150 50⟩], []⟩
        ["shape-1", "shape-2"] "center") "shape-2").map
        (fun e => (aGetShapeBounds e.geom).centerX) = some 125
    ∧ (75 : ℚ) ≠ 125 := by
  refine ⟨?_, ?_, by norm_num⟩ <;>
    (simp [alignHorizontal, findShape, findFirst, updateFirst, moveShapeToPosition,
       updateSiblingLabelS, findSibLabel, moveGeom, aGetShapeBounds, Topolizer.mkBounds,
       minList, maxList, isBasic, isCircular, sibLabelTarget, List.filterMap,
       List.zip, List.zipWith, List.foldl];
     norm_num [min_def, max_def])

/-- C4 (amended): for at least two distinct resolvable shapes, each of a
kind whose position `moveShapeToPosition` establishes (`rect`, `circle`,
`ellipse`, or a translate-positioned group with content-box origin
`(0,0)`), center-mode horizontal alignment gives every shape's recomputed
bounds the same `centerX` — the midpoint of the pre-alignment minimum
leading edge and maximum trailing edge — while `y`, `width` and `height`
are untouched. -/
theorem align_center_equalizes_centerX (sc : AScene) (ids : List String)
    (h2 : 2 ≤ ids.length) (hnd : ids.Nodup)
    (hres : ∀ id ∈ ids, ∃ e, findShape sc id = some e ∧ positionable e.geom) :
    ∀ id ∈ ids, ∃ e e',
      findShape sc id = some e ∧
      findShape (alignHorizontal sc ids "center") id = some e' ∧
      (aGetShapeBounds e'.geom).centerX = centerRefX sc ids ∧
      (aGetShapeBounds e'.geom).y = (aGetShapeBounds e.geom).y ∧
      (aGetShapeBounds e'.geom).width = (aGetShapeBounds e.geom).width ∧
      (aGetShapeBounds e'.geom).height = (aGetShapeBounds e.geom).height := by
  intro id hid
  have hmapid := resolve_map_id sc ids hres
  have hlen : (ids.filterMap (findShape sc)).length = ids.length := by
    conv_rhs => rw [← hmapid]
    simp
  have hg1 : ¬ ids.length < 2 := by omega
  have hg2 : ¬ (ids.filterMap (findShape sc)).length < 2 := by omega
  rw [alignHorizontal_center_eq sc ids hg1 hg2]
  have hidmem : id ∈ (ids.filterMap (findShape sc)).map (fun e => e.id) := by
    rw [hmapid]; exact hid
  obtain ⟨e, hemem, heid⟩ := List.mem_map.mp hidmem
  have hndmv : (((ids.filterMap (findShape sc)).map
      (fun e => (e, centerRefX sc ids - (aGetShapeBounds e.geom).width / 2,
                 (aGetShapeBounds e.geom).y))).map (fun m => m.1.id)).Nodup := by
    rw [List.map_map]
    have hcomp : ((fun m : AShapeE × ℚ × ℚ => m.1.id) ∘
        (fun e : AShapeE => (e, centerRefX sc ids - (aGetShapeBounds e.geom).width / 2,
          (aGetShapeBounds e.geom).y))) = fun e : AShapeE => e.id := rfl
    rw [hcomp, hmapid]
    exact hnd
  have hresmv : ∀ m ∈ (ids.filterMap (findShape sc)).map
      (fun e => (e, centerRefX sc ids - (aGetShapeBounds e.geom).width / 2,
                 (aGetShapeBounds e.geom).y)),
      findShape sc m.1.id = some m.1 ∧ positionable m.1.geom := by
    intro m hm
    obtain ⟨e0, he0, hme⟩ := List.mem_map.mp hm
    subst hme
    exact resolve_mem sc ids hres e0 he0
  obtain ⟨e', hfind', hb⟩ := applyMoves_spec _ sc hndmv hresmv
    (e, centerRefX sc ids - (aGetShapeBounds e.geom).width / 2, (aGetShapeBounds e.geom).y)
    (List.mem_map_of_mem _ hemem)
  have hesc : findShape sc id = some e := by
    rw [← heid]
    exact (resolve_mem sc ids hres e hemem).1
  refine ⟨e, e', hesc, ?_, ?_, ?_, ?_, ?_⟩
  · rw [← heid]; exact hfind'
  · rw [hb]; simp [Topolizer.mkBounds]
  · rw [hb]; simp [Topolizer.mkBounds]
  · rw [hb]; simp [Topolizer.mkBounds]
  · rw [hb]; simp [Topolizer.mkBounds]

/-- Witness for `align_center_equalizes_centerX`: two rects at x = 0 and
x = 100 of width 50, observed at `shape-1`. -/
theorem align_center_equalizes_centerX_witness :
    ∃ e e',
      findShape (⟨[⟨"shape-1", .rect 0 0 50 50⟩, ⟨"shape-2", .rect 100 0 50 50⟩], []⟩ : AScene)
        "shape-1" = some e ∧
      findShape (alignHorizontal
          ⟨[⟨"shape-1", .rect 0 0 50 50⟩, ⟨"shape-2", .rect 100 0 50 50⟩], []⟩
          ["shape-1", "shape-2"] "center") "shape-1" = some e' ∧
      (aGetShapeBounds e'.geom).centerX =
        centerRefX ⟨[⟨"shape-1", .rect 0 0 50 50⟩, ⟨"shape-2", .rect 100 0 50 50⟩], []⟩
          ["shape-1", "shape-2"] ∧
      (aGetShapeBounds e'.geom).y = (aGetShapeBounds e.geom).y ∧
      (aGetShapeBounds e'.geom).width = (aGetShapeBounds e.geom).width ∧
      (aGetShapeBounds e'.geom).height = (aGetShapeBounds e.geom).height :=
  align_center_equalizes_centerX
    ⟨[⟨"shape-1", .rect 0 0 50 50⟩, ⟨"shape-2", .rect 100 0 50 50⟩], []⟩
    ["shape-1", "shape-2"] (by decide) (by decide)
    (by
      intro id hid
      fin_cases hid
      · exact ⟨⟨"shape-1", .rect 0 0 50 50⟩, rfl, trivial⟩
      · exact ⟨⟨"shape-2", .rect 100 0 50 50⟩, rfl, trivial⟩)
    "shape-1" (by decide)

/-- C5 (counterexample): horizontal distribution does not equalize the
adjacent gaps for every set of at least three resolvable shapes.  A bare
`line` element resolves but is never repositioned by
`moveShapeToPosition`: distributing a rect (0,0,50,50), a line from
(100,0) to (150,50) and a rect (260,0,50,50) leaves the line at x = 100,
giving adjacent gaps 100 − 50 = 50 and 260 − 150 = 110. -/
theorem distribute_line_counterexample :
    (findShape (distributeHorizontal
        ⟨[⟨"shape-1", .rect 0 0 50 50⟩, ⟨"shape-2", .line 100 0 150 50⟩,
          ⟨"shape-3", .rect 260 0 50 50⟩], []⟩
        ["shape-1", "shape-2", "shape-3"]) "shape-1").map
        (fun e => (aGetShapeBounds e.geom).right) = some 50
    ∧ (findShape (distributeHorizontal
        ⟨[⟨"shape-1", .rect 0 0 50 50⟩, ⟨"shape-2", .line 100 0 150 50⟩,
          ⟨"shape-3", .rect 260 0 50 50⟩], []⟩
        ["shape-1", "shape-2", "shape-3"]) "shape-2").map
        (fun e => ((aGetShapeBounds e.geom).x, (aGetShapeBounds e.geom).right))
        = some (100, 150)
    ∧ (findShape (distributeHorizontal
        ⟨[⟨"shape-1", .rect 0 0 50 50⟩, ⟨"shape-2", .line 100 0 150 50⟩,
          ⟨"shape-3", .rect 260 0 50 50⟩], []⟩
        ["shape-1", "shape-2", "shape-3"]) "shape-3").map
        (fun e => (aGetShapeBounds e.geom).x) = some 260
    ∧ ((100 : ℚ) - 50 ≠ 260 - 150) := by
  refine ⟨?_, ?_, ?_, by norm_num⟩ <;>
    (simp [distributeHorizontal, distSortedH, distWalkH, findShape, findFirst, updateFirst,
       moveShapeToPosition, updateSiblingLabelS, findSibLabel, moveGeom, aGetShapeBounds,
       Topolizer.mkBounds, List.filterMap, List.insertionSort, List.orderedInsert,
       List.getLastD, List.foldl, isBasic, isCircular];
     try norm_num [min_def, max_def])

/-- C5 (amended): for at least three distinct resolvable shapes of
positionable kinds, horizontal distribution makes every adjacent gap —
next shape's recomputed left edge minus previous shape's recomputed right
edge, shapes enumerated in ascending order of pre-distribution x — equal
to one common spacing; and in the concrete case of rect shapes of width
50 at x = 0, 100, 260 the outer shapes keep their positions and the
middle one moves to x = 130. -/
theorem distributeHorizontal_equal_gaps (sc : AScene) (ids : List String)
    (h3 : 3 ≤ ids.length) (hnd : ids.Nodup)
    (hres : ∀ id ∈ ids, ∃ e, findShape sc id = some e ∧ positionable e.geom) :
    (∃ spacing : ℚ,
      ∀ (i : ℕ) (hi : i + 1 < (distSortedH sc ids).length),
        ∃ e1 e2,
          findShape (distributeHorizontal sc ids)
              (((distSortedH sc ids).get ⟨i, by omega⟩).1.id) = some e1 ∧
          findShape (distributeHorizontal sc ids)
              (((distSortedH sc ids).get ⟨i + 1, hi⟩).1.id) = some e2 ∧
          (aGetShapeBounds e2.geom).x - (aGetShapeBounds e1.geom).right = spacing)
    ∧ findShape (distributeHorizontal
        ⟨[⟨"shape-1", .rect 0 0 50 50⟩, ⟨"shape-2", .rect 100 0 50 50⟩,
          ⟨"shape-3", .rect 260 0 50 50⟩], []⟩
        ["shape-1", "shape-2", "shape-3"]) "shape-1"
        = some ⟨"shape-1", .rect 0 0 50 50⟩
    ∧ findShape (distributeHorizontal
        ⟨[⟨"shape-1", .rect 0 0 50 50⟩, ⟨"shape-2", .rect 100 0 50 50⟩,
          ⟨"shape-3", .rect 260 0 50 50⟩], []⟩
        ["shape-1", "shape-2", "shape-3"]) "shape-2"
        = some ⟨"shape-2", .rect 130 0 50 50⟩
    ∧ findShape (distributeHorizontal
        ⟨[⟨"shape-1", .rect 0 0 50 50⟩, ⟨"shape-2", .rect 100 0 50 50⟩,
          ⟨"shape-3", .rect 260 0 50 50⟩], []⟩
        ["shape-1", "shape-2", "shape-3"]) "shape-3"
        = some ⟨"shape-3", .rect 260 0 50 50⟩ := by
  refine ⟨?_, ?_, ?_, ?_⟩
  case refine_2 =>
    simp [distributeHorizontal, distSortedH, distWalkH, findShape, findFirst, updateFirst,
      moveShapeToPosition, updateSiblingLabelS, findSibLabel, moveGeom, aGetShapeBounds,
      Topolizer.mkBounds, List.filterMap, List.insertionSort, List.orderedInsert,
      List.getLastD, List.foldl, isBasic, isCircular]
    try norm_num
  case refine_3 =>
    simp [distributeHorizontal, distSortedH, distWalkH, findShape, findFirst, updateFirst,
      moveShapeToPosition, updateSiblingLabelS, findSibLabel, moveGeom, aGetShapeBounds,
      Topolizer.mkBounds, List.filterMap, List.insertionSort, List.orderedInsert,
      List.getLastD, List.foldl, isBasic, isCircular]
    try norm_num
  case refine_4 =>
    simp [distributeHorizontal, distSortedH, distWalkH, findShape, findFirst, updateFirst,
      moveShapeToPosition, updateSiblingLabelS, findSibLabel, moveGeom, aGetShapeBounds,
      Topolizer.mkBounds, List.filterMap, List.insertionSort, List.orderedInsert,
      List.getLastD, List.foldl, isBasic, isCircular]
    try norm_num
  have hmapid := resolve_map_id sc ids hres
  have hlenres : (ids.filterMap (findShape sc)).length = ids.length := by
    conv_rhs => rw [← hmapid]
    simp
  have hperm0 := distSortedH_perm sc ids
  have hsndall := distSortedH_snd sc ids
  have hsortlen : (distSortedH sc ids).length = ids.length := by
    rw [hperm0.length_eq]
    simp [hlenres]
  have hg1 : ¬ ids.length < 3 := by omega
  have hg2 : ¬ (ids.filterMap (findShape sc)).length < 3 := by omega
  rcases hs : distSortedH sc ids with - | ⟨first, rest⟩
  · exfalso
    rw [hs] at hsortlen
    simp at hsortlen
    omega
  refine ⟨(((first :: rest).getLastD first).2.right - first.2.x
      - (first :: rest).foldl (fun s eb => s + eb.2.width) 0)
      / (((first :: rest).length : ℚ) - 1), ?_⟩
  intro i hi
  set spacing := (((first :: rest).getLastD first).2.right - first.2.x
      - (first :: rest).foldl (fun s eb => s + eb.2.width) 0)
      / (((first :: rest).length : ℚ) - 1) with hspace
  have hdist : distributeHorizontal sc ids
      = applyMoves sc (distTargets spacing (first :: rest) first.2.x) := by
    unfold distributeHorizontal
    rw [if_neg hg1, if_neg hg2]
    simp only [hs]
    rw [distWalkH_eq_applyMoves]
  have hpermc : (first :: rest).Perm
      ((ids.filterMap (findShape sc)).map (fun e => (e, aGetShapeBounds e.geom))) := by
    rw [← hs]
    exact hperm0
  have hmapmv : (distTargets spacing (first :: rest) first.2.x).map (fun m => m.1.id)
      = (first :: rest).map (fun eb => eb.1.id) := by
    have h0 : (fun m : AShapeE × ℚ × ℚ => m.1.id)
        = ((fun e : AShapeE => e.id) ∘ (fun m : AShapeE × ℚ × ℚ => m.1)) := rfl
    rw [h0, ← List.map_map, distTargets_map_fst, List.map_map]
    rfl
  have hndmv : ((distTargets spacing (first :: rest) first.2.x).map
      (fun m => m.1.id)).Nodup := by
    rw [hmapmv]
    rw [(hpermc.map (fun eb : AShapeE × Topolizer.Bounds ℚ => eb.1.id)).nodup_iff]
    rw [List.map_map]
    have h1 : ((fun eb : AShapeE × Topolizer.Bounds ℚ => eb.1.id) ∘
        (fun e : AShapeE => (e, aGetShapeBounds e.geom))) = fun e : AShapeE => e.id := rfl
    rw [h1, hmapid]
    exact hnd
  have hresmv : ∀ m ∈ distTargets spacing (first :: rest) first.2.x,
      findShape sc m.1.id = some m.1 ∧ positionable m.1.geom := by
    intro m hm
    have h1 : m.1 ∈ (distTargets spacing (first :: rest) first.2.x).map (fun m => m.1) :=
      List.mem_map_of_mem _ hm
    rw [distTargets_map_fst] at h1
    obtain ⟨eb, hebmem, hfst⟩ := List.mem_map.mp h1
    have hebp := hpermc.mem_iff.mp hebmem
    obtain ⟨e, hee, heq⟩ := List.mem_map.mp hebp
    have : m.1 = e := by rw [← hfst, ← heq]
    rw [this]
    exact resolve_mem sc ids hres e hee
  have hleni : i < (first :: rest).length := by
    simp only [List.length_cons] at hi ⊢
    omega
  have hlent : i < (distTargets spacing (first :: rest) first.2.x).length := by
    rw [distTargets_length]
    exact hleni
  have hlent1 : i + 1 < (distTargets spacing (first :: rest) first.2.x).length := by
    rw [distTargets_length]
    exact hi
  have hmi := distTargets_get spacing (first :: rest) first.2.x i hleni
  have hmi1 := distTargets_get spacing (first :: rest) first.2.x (i + 1) hi
  obtain ⟨e1, hf1, hb1⟩ := applyMoves_spec _ sc hndmv hresmv _
    (List.get_mem (distTargets spacing (first :: rest) first.2.x) i hlent)
  obtain ⟨e2, hf2, hb2⟩ := applyMoves_spec _ sc hndmv hresmv _
    (List.get_mem (distTargets spacing (first :: rest) first.2.x) (i + 1) hlent1)
  refine ⟨e1, e2, ?_, ?_, ?_⟩
  · rw [hdist]
    rw [hmi] at hf1
    exact hf1
  · rw [hdist]
    rw [hmi1] at hf2
    exact hf2
  · rw [hmi] at hb1
    rw [hmi1] at hb2
    rw [hb1, hb2]
    have hw : (aGetShapeBounds ((first :: rest).get ⟨i, hleni⟩).1.geom).width
        = ((first :: rest).get ⟨i, hleni⟩).2.width := by
      rw [← hsndall ((first :: rest).get ⟨i, hleni⟩) (by rw [hs]; exact List.get_mem _ i hleni)]
    simp only [Topolizer.mkBounds]
    rw [hw, walkOffset_take_succ spacing (first :: rest) i hleni]
    ring

/-- Witness for `distributeHorizontal_equal_gaps`: the three rects of
width 50 at x = 0, 100, 260. -/
theorem distributeHorizontal_equal_gaps_witness :
    ∃ spacing : ℚ,
      ∀ (i : ℕ)
        (hi : i + 1 < (distSortedH
          ⟨[⟨"shape-1", .rect 0 0 50 50⟩, ⟨"shape-2", .rect 100 0 50 50⟩,
            ⟨"shape-3", .rect 260 0 50 50⟩], []⟩
          ["shape-1", "shape-2", "shape-3"]).length),
        ∃ e1 e2,
          findShape (distributeHorizontal
              ⟨[⟨"shape-1", .rect 0 0 50 50⟩, ⟨"shape-2", .rect 100 0 50 50⟩,
                ⟨"shape-3", .rect 260 0 50 50⟩], []⟩
              ["shape-1", "shape-2", "shape-3"])
            (((distSortedH
                ⟨[⟨"shape-1", .rect 0 0 50 50⟩, ⟨"shape-2", .rect 100 0 50 50⟩,
                  ⟨"shape-3", .rect 260 0 50 50⟩], []⟩
                ["shape-1", "shape-2", "shape-3"]).get ⟨i, by omega⟩).1.id) = some e1 ∧
          findShape (distributeHorizontal
              ⟨[⟨"shape-1", .rect 0 0 50 50⟩, ⟨"shape-2", .rect 100 0 50 50⟩,
                ⟨"shape-3", .rect 260 0 50 50⟩], []⟩
              ["shape-1", "shape-2", "shape-3"])
            (((distSortedH
                ⟨[⟨"shape-1", .rect 0 0 50 50⟩, ⟨"shape-2", .rect 100 0 50 50⟩,
                  ⟨"shape-3", .rect 260 0 50 50⟩], []⟩
                ["shape-1", "shape-2", "shape-3"]).get ⟨i + 1, hi⟩).1.id) = some e2 ∧
          (aGetShapeBounds e2.geom).x - (aGetShapeBounds e1.geom).right = spacing :=
  (distributeHorizontal_equal_gaps
    ⟨[⟨"shape-1", .rect 0 0 50 50⟩, ⟨"shape-2", .rect 100 0 50 50⟩,
      ⟨"shape-3", .rect 260 0 50 50⟩], []⟩
    ["shape-1", "shape-2", "shape-3"] (by decide) (by decide)
    (by
      intro id hid
      fin_cases hid
      · exact ⟨⟨"shape-1", .rect 0 0 50 50⟩, rfl, trivial⟩
      · exact ⟨⟨"shape-2", .rect 100 0 50 50⟩, rfl, trivial⟩
      · exact ⟨⟨"shape-3", .rect 260 0 50 50⟩, rfl, trivial⟩)).1

/-- C7 (counterexample): an alignment invocation whose id list contains an
unresolvable id is not a no-op.  With live rects `shape-1`, `shape-2` and
the dangling id `ghost`, `alignHorizontal` silently drops `ghost`
(`filter(Boolean)`), still has 2 resolved shapes, and moves `shape-1`
from x = 0 to x = 50. -/
theorem align_unresolvable_id_still_mutates :
    findShape (⟨[⟨"shape-1", .rect 0 0 50 50⟩, ⟨"shape-2", .rect 100 0 50 50⟩], []⟩ : AScene)
      "ghost" = none
    ∧ findShape (alignHorizontal
        ⟨[⟨"shape-1", .rect 0 0 50 50⟩, ⟨"shape-2", .rect 100 0 50 50⟩], []⟩
        ["shape-1", "shape-2", "ghost"] "center") "shape-1"
      = some ⟨"shape-1", .rect 50 0 50 50⟩
    ∧ (⟨"shape-1", AShape.rect 50 0 50 50⟩ : AShapeE) ≠ ⟨"shape-1", AShape.rect 0 0 50 50⟩ := by
  refine ⟨by simp [findShape, findFirst], ?_, by simp⟩
  simp [alignHorizontal, findShape, findFirst, updateFirst, moveShapeToPosition,
    updateSiblingLabelS, findSibLabel, moveGeom, aGetShapeBounds, Topolizer.mkBounds,
    minList, maxList, isBasic, isCircular, sibLabelTarget, List.filterMap,
    List.zip, List.zipWith, List.foldl]
  norm_num [min_def, max_def]

/-- C7 (amended): the align/distribute operations are no-ops exactly when
fewer than the required number of ids (2 for align, 3 for distribute)
resolve to live shapes; ids that do not resolve are silently dropped, and
when enough ids resolve the operation proceeds on the resolved subset
(see the counterexample above). -/
theorem align_distribute_noop_when_underresolved (sc : AScene) (ids : List String)
    (alignment : String) :
    ((ids.filterMap (findShape sc)).length < 2 →
      alignHorizontal sc ids alignment = sc ∧ alignVertical sc ids alignment = sc) ∧
    ((ids.filterMap (findShape sc)).length < 3 →
      distributeHorizontal sc ids = sc ∧ distributeVertical sc ids = sc) := by
  have hle : (ids.filterMap (findShape sc)).length ≤ ids.length :=
    List.length_filterMap_le _ _
  constructor
  · intro h
    constructor
    · unfold alignHorizontal
      by_cases h1 : ids.length < 2
      · rw [if_pos h1]
      · rw [if_neg h1]
        simp [h]
    · unfold alignVertical
      by_cases h1 : ids.length < 2
      · rw [if_pos h1]
      · rw [if_neg h1]
        simp [h]
  · intro h
    constructor
    · unfold distributeHorizontal
      by_cases h1 : ids.length < 3
      · rw [if_pos h1]
      · rw [if_neg h1]
        simp [h]
    · unfold distributeVertical
      by_cases h1 : ids.length < 3
      · rw [if_pos h1]
      · rw [if_neg h1]
        simp [h]

/-- Witness for `align_distribute_noop_when_underresolved`: a scene with a
single rect and two dangling ids resolves only one shape, so all four
operations return the scene unchanged. -/
theorem align_distribute_noop_witness :
    alignHorizontal (⟨[⟨"shape-1", .rect 0 0 50 50⟩], []⟩ : AScene)
      ["shape-1", "ghost1", "ghost2"] "center"
      = (⟨[⟨"shape-1", .rect 0 0 50 50⟩], []⟩ : AScene)
    ∧ alignVertical (⟨[⟨"shape-1", .rect 0 0 50 50⟩], []⟩ : AScene)
      ["shape-1", "ghost1", "ghost2"] "center"
      = (⟨[⟨"shape-1", .rect 0 0 50 50⟩], []⟩ : AScene)
    ∧ distributeHorizontal (⟨[⟨"shape-1", .rect 0 0 50 50⟩], []⟩ : AScene)
      ["shape-1", "ghost1", "ghost2"]
      = (⟨[⟨"shape-1", .rect 0 0 50 50⟩], []⟩ : AScene)
    ∧ distributeVertical (⟨[⟨"shape-1", .rect 0 0 50 50⟩], []⟩ : AScene)
      ["shape-1", "ghost1", "ghost2"]
      = (⟨[⟨"shape-1", .rect 0 0 50 50⟩], []⟩ : AScene) := by
  have hres : ((["shape-1", "ghost1", "ghost2"] : List String).filterMap
      (findShape (⟨[⟨"shape-1", .rect 0 0 50 50⟩], []⟩ : AScene))).length = 1 := by
    simp [findShape, findFirst, List.filterMap]
  have h := align_distribute_noop_when_underresolved
    (⟨[⟨"shape-1", .rect 0 0 50 50⟩], []⟩ : AScene) ["shape-1", "ghost1", "ghost2"] "center"
  exact ⟨(h.1 (by omega)).1, (h.1 (by omega)).2, (h.2 (by omega)).1, (h.2 (by omega)).2⟩

end AlignClaims

section RestoreClaims

open Topolizer Topolizer.Restore

theorem maxSuffix_cons (pat : List Char) (a : String) (rest : List String) (m0 : Nat) :
    maxSuffix pat (a :: rest) m0
      = maxSuffix pat rest
          (match matchNumAux pat a.toList with
           | some n => max m0 n
           | none => m0) := rfl

theorem le_maxSuffix_init (pat : List Char) (ids : List String) :
    ∀ m0 : Nat, m0 ≤ maxSuffix pat ids m0 := by
  induction ids with
  | nil => intro m0; exact le_refl m0
  | cons a rest ih =>
    intro m0
    rw [maxSuffix_cons]
    rcases hma : matchNumAux pat a.toList with - | n
    · exact ih m0
    · exact le_trans (le_max_left m0 n) (ih _)

theorem le_maxSuffix (pat : List Char) (ids : List String) (id : String) (n : Nat)
    (hid : id ∈ ids) (hm : matchNumAux pat id.toList = some n) :
    ∀ m0 : Nat, n ≤ maxSuffix pat ids m0 := by
  induction ids with
  | nil => simp at hid
  | cons a rest ih =>
    intro m0
    rcases List.mem_cons.mp hid with hh | ht
    · subst hh
      rw [maxSuffix_cons, hm]
      exact le_trans (le_max_right m0 n) (le_maxSuffix_init pat rest _)
    · rw [maxSuffix_cons]
      exact ih ht _

/-- C6 (counterexample): the localStorage restore path does not advance
the counters past the restored suffixes.  A session that created exactly
`shape-1` persists `shapeIdCounter = 1`; `restoreAppState` adopts the
saved value verbatim, so after restoring a document containing `shape-1`
the counter equals 1, the highest suffix — not strictly greater. -/
theorem restoreCounter_not_strictly_greater :
    restoreCounter (some 1) 0 = 1
    ∧ matchShapeNum "shape-1" = some 1
    ∧ ¬ 1 < restoreCounter (some 1) 0 := by
  refine ⟨rfl, by decide, by decide⟩

/-- C6 (amended): the file-import path (`loadTopology`) does leave each
counter strictly greater than every positive numeric suffix among the
restored ids (for both the `shape-` and `connection-` patterns); the
localStorage path instead adopts the persisted counter value unchanged,
which equals — rather than strictly exceeds — the highest suffix the
saving session generated (id generation pre-increments, so adopting the
equal value still yields fresh ids). -/
theorem advanceCounter_exceeds_suffixes (pat : List Char) (ids : List String)
    (counter : Nat) (id : String) (n : Nat) (hid : id ∈ ids)
    (hm : matchNumAux pat id.toList = some n) (hn : 1 ≤ n) :
    n < advanceCounter pat ids counter := by
  unfold advanceCounter
  have hmax : n ≤ maxSuffix pat ids 0 := le_maxSuffix pat ids id n hid hm 0
  simp only
  split_ifs with h
  · omega
  · rw [not_and_or, not_lt, not_le] at h
    rcases h with h | h
    · omega
    · omega

/-- Witness for `advanceCounter_exceeds_suffixes`: restoring `shape-3`
with current counter 1 advances the counter to 4 > 3. -/
theorem advanceCounter_exceeds_suffixes_witness :
    3 < advanceCounter "shape-".toList ["shape-3"] 1 :=
  advanceCounter_exceeds_suffixes "shape-".toList ["shape-3"] 1 "shape-3" 3
    (by decide) (by decide) (by decide)

end RestoreClaims

section ConnClaims

open Topolizer Topolizer.Conn

/-- C2 (refutation of the back-reference cleanup): on a scene with shapes
`shape-1`, `shape-2` joined by `connection-1` (with its three labels),
`deleteShape` on `shape-1` removes the connection, its labels and the
shape itself — but `shape-2`, the surviving endpoint, still carries
`connection-1` in its back-reference set: `deleteShapeConnections` never
touches the other endpoint's `dataset.connections`. -/
theorem deleteShape_leaves_dangling_backref :
    findConn (deleteShape
      ⟨[⟨"shape-1", .rect 0 0 50 50, ["connection-1"]⟩,
        ⟨"shape-2", .rect 200 0 50 50, ["connection-1"]⟩],
       [⟨"connection-1", "shape-1", "shape-2", some "label-connection-1-source",
         some "label-connection-1-target", some "label-connection-1-center", 50, 25, 200, 25⟩],
       [⟨"label-connection-1-source", 85, 25, some 25, some 25, some 60⟩,
        ⟨"label-connection-1-target", 165, 25, some 225, some 25, some 60⟩,
        ⟨"label-connection-1-center", 125, 25, none, none, none⟩]⟩
      "shape-1") "connection-1" = none
    ∧ findLabel (deleteShape
      ⟨[⟨"shape-1", .rect 0 0 50 50, ["connection-1"]⟩,
        ⟨"shape-2", .rect 200 0 50 50, ["connection-1"]⟩],
       [⟨"connection-1", "shape-1", "shape-2", some "label-connection-1-source",
         some "label-connection-1-target", some "label-connection-1-center", 50, 25, 200, 25⟩],
       [⟨"label-connection-1-source", 85, 25, some 25, some 25, some 60⟩,
        ⟨"label-connection-1-target", 165, 25, some 225, some 25, some 60⟩,
        ⟨"label-connection-1-center", 125, 25, none, none, none⟩]⟩
      "shape-1") "label-connection-1-source" = none
    ∧ findCMShape (deleteShape
      ⟨[⟨"shape-1", .rect 0 0 50 50, ["connection-1"]⟩,
        ⟨"shape-2", .rect 200 0 50 50, ["connection-1"]⟩],
       [⟨"connection-1", "shape-1", "shape-2", some "label-connection-1-source",
         some "label-connection-1-target", some "label-connection-1-center", 50, 25, 200, 25⟩],
       [⟨"label-connection-1-source", 85, 25, some 25, some 25, some 60⟩,
        ⟨"label-connection-1-target", 165, 25, some 225, some 25, some 60⟩,
        ⟨"label-connection-1-center", 125, 25, none, none, none⟩]⟩
      "shape-1") "shape-1" = none
    ∧ findCMShape (deleteShape
      ⟨[⟨"shape-1", .rect 0 0 50 50, ["connection-1"]⟩,
        ⟨"shape-2", .rect 200 0 50 50, ["connection-1"]⟩],
       [⟨"connection-1", "shape-1", "shape-2", some "label-connection-1-source",
         some "label-connection-1-target", some "label-connection-1-center", 50, 25, 200, 25⟩],
       [⟨"label-connection-1-source", 85, 25, some 25, some 25, some 60⟩,
        ⟨"label-connection-1-target", 165, 25, some 225, some 25, some 60⟩,
        ⟨"label-connection-1-center", 125, 25, none, none, none⟩]⟩
      "shape-1") "shape-2"
      = some ⟨"shape-2", .rect 200 0 50 50, ["connection-1"]⟩ :=
  ⟨rfl, rfl, rfl, rfl⟩

theorem truthy_append_label (cid suffix : String) :
    truthy (some ("label-" ++ cid ++ suffix)) = true := by
  show (if ("label-" ++ cid ++ suffix : String) = "" then false else true) = true
  split_ifs with h
  · exfalso
    have hlen := congrArg String.length h
    rw [String.length_append, String.length_append] at hlen
    have h6 : ("label-" : String).length = 6 := rfl
    rw [h6] at hlen
    simp at hlen
  · rfl

theorem migrateConn_idem (e : String → Bool) (c : CMConn) :
    migrateConn e (migrateConn e c) = migrateConn e c := by
  rcases c with ⟨cid, s, t, sl, tl, cl, a1, b1, a2, b2⟩
  by_cases h : (truthy sl && truthy tl) = true
  · simp [migrateConn, h]
  · have h' : (truthy sl && truthy tl) = false := by simpa using h
    by_cases hes : e ("label-" ++ cid ++ "-source") = true <;>
      by_cases het : e ("label-" ++ cid ++ "-target") = true <;>
        by_cases hec : e ("label-" ++ cid ++ "-center") = true <;>
          simp [migrateConn, h', hes, het, hec, truthy_append_label]

/-- C3: the legacy back-reference migration is idempotent — running
`migrateExistingConnections` a second time immediately after a first run
leaves the scene unchanged, for every scene.  (Connections carrying both
label-id attributes are skipped outright; the remaining writes re-assign
the same convention-derived ids, since the label population is
untouched.) -/
theorem migrateExistingConnections_idempotent (sc : CMScene) :
    migrateExistingConnections (migrateExistingConnections sc)
      = migrateExistingConnections sc := by
  have hmap : ∀ l : List CMConn,
      (l.map (migrateConn (labelExists sc))).map (migrateConn (labelExists sc))
        = l.map (migrateConn (labelExists sc)) := by
    intro l
    induction l with
    | nil => rfl
    | cons a rest ih => simp [migrateConn_idem, ih]
  show CMScene.mk sc.shapes
      (((sc.conns.map (migrateConn (labelExists sc))).map (migrateConn (labelExists sc))))
      sc.labels
    = CMScene.mk sc.shapes (sc.conns.map (migrateConn (labelExists sc))) sc.labels
  rw [hmap]

theorem sq_sum_pos {dx dy : ℝ} (hne : ¬ (dx = 0 ∧ dy = 0)) : 0 < dx * dx + dy * dy := by
  rcases not_and_or.mp hne with h | h
  · have h1 : 0 < dx * dx := mul_self_pos.mpr h
    have h2 : 0 ≤ dy * dy := mul_self_nonneg dy
    linarith
  · have h1 : 0 < dy * dy := mul_self_pos.mpr h
    have h2 : 0 ≤ dx * dx := mul_self_nonneg dx
    linarith

/-- Core property of `findBoundaryIntersection` for a positive-size box
and a nonzero direction: the minimum of the two edge parameters is a
finite positive `t`, the returned point steps `t` along the unit
direction, and that point lies exactly on the box boundary (one
coordinate offset at its half-extent, the other within its
half-extent). -/
theorem findBoundaryIntersection_spec (bounds : Topolizer.Bounds ℝ) (center : ℝ × ℝ)
    (dx dy : ℝ) (hw : 0 < bounds.width) (hh : 0 < bounds.height)
    (hne : ¬ (dx = 0 ∧ dy = 0)) :
    ∃ t : ℝ, 0 < t
      ∧ minInf (divInf (bounds.height / 2) |dy / Real.sqrt (dx * dx + dy * dy)|)
               (divInf (bounds.width / 2) |dx / Real.sqrt (dx * dx + dy * dy)|) = some t
      ∧ findBoundaryIntersection bounds center dx dy
          = (center.1 + dx / Real.sqrt (dx * dx + dy * dy) * t,
             center.2 + dy / Real.sqrt (dx * dx + dy * dy) * t)
      ∧ ((|dx / Real.sqrt (dx * dx + dy * dy) * t| = bounds.width / 2
            ∧ |dy / Real.sqrt (dx * dx + dy * dy) * t| ≤ bounds.height / 2)
         ∨ (|dy / Real.sqrt (dx * dx + dy * dy) * t| = bounds.height / 2
            ∧ |dx / Real.sqrt (dx * dx + dy * dy) * t| ≤ bounds.width / 2)) := by
  have hL2 : 0 < dx * dx + dy * dy := sq_sum_pos hne
  have hL : 0 < Real.sqrt (dx * dx + dy * dy) := Real.sqrt_pos.mpr hL2
  have hLne : ¬ Real.sqrt (dx * dx + dy * dy) = 0 := ne_of_gt hL
  set L := Real.sqrt (dx * dx + dy * dy) with hLdef
  set ndx := dx / L with hndx
  set ndy := dy / L with hndy
  have hw2 : 0 < bounds.width / 2 := by linarith
  have hh2 : 0 < bounds.height / 2 := by linarith
  have hrw : findBoundaryIntersection bounds center dx dy
      = match minInf (divInf (bounds.height / 2) |ndy|) (divInf (bounds.width / 2) |ndx|) with
        | some t => (center.1 + ndx * t, center.2 + ndy * t)
        | none => center := by
    unfold findBoundaryIntersection
    rw [if_neg hLne]
  by_cases hdy : dy = 0
  · have hdx : dx ≠ 0 := fun hc => hne ⟨hc, hdy⟩
    have hndy0 : ndy = 0 := by rw [hndy, hdy, zero_div]
    have hndxne : |ndx| ≠ 0 := abs_ne_zero.mpr (div_ne_zero hdx hLne)
    have hndxpos : 0 < |ndx| := lt_of_le_of_ne (abs_nonneg _) (Ne.symm hndxne)
    have htpos : 0 < bounds.width / 2 / |ndx| := div_pos hw2 hndxpos
    have ht : minInf (divInf (bounds.height / 2) |ndy|) (divInf (bounds.width / 2) |ndx|)
        = some (bounds.width / 2 / |ndx|) := by
      rw [hndy0, abs_zero]
      unfold divInf
      rw [if_pos rfl, if_neg hndxne]
      rfl
    refine ⟨bounds.width / 2 / |ndx|, htpos, ht, by rw [hrw, ht], Or.inl ⟨?_, ?_⟩⟩
    · rw [abs_mul, abs_of_pos htpos, mul_comm]
      exact div_mul_cancel₀ _ hndxne
    · rw [hndy0, zero_mul, abs_zero]
      linarith
  · by_cases hdx : dx = 0
    · have hndx0 : ndx = 0 := by rw [hndx, hdx, zero_div]
      have hndyne : |ndy| ≠ 0 := abs_ne_zero.mpr (div_ne_zero hdy hLne)
      have hndypos : 0 < |ndy| := lt_of_le_of_ne (abs_nonneg _) (Ne.symm hndyne)
      have htpos : 0 < bounds.height / 2 / |ndy| := div_pos hh2 hndypos
      have ht : minInf (divInf (bounds.height / 2) |ndy|) (divInf (bounds.width / 2) |ndx|)
          = some (bounds.height / 2 / |ndy|) := by
        rw [hndx0, abs_zero]
        unfold divInf
        rw [if_neg hndyne, if_pos rfl]
        rfl
      refine ⟨bounds.height / 2 / |ndy|, htpos, ht, by rw [hrw, ht], Or.inr ⟨?_, ?_⟩⟩
      · rw [abs_mul, abs_of_pos htpos, mul_comm]
        exact div_mul_cancel₀ _ hndyne
      · rw [hndx0, zero_mul, abs_zero]
        linarith
    · have hndxne : |ndx| ≠ 0 := abs_ne_zero.mpr (div_ne_zero hdx hLne)
      have hndyne : |ndy| ≠ 0 := abs_ne_zero.mpr (div_ne_zero hdy hLne)
      have hndxpos : 0 < |ndx| := lt_of_le_of_ne (abs_nonneg _) (Ne.symm hndxne)
      have hndypos : 0 < |ndy| := lt_of_le_of_ne (abs_nonneg _) (Ne.symm hndyne)
      have htH : 0 < bounds.height / 2 / |ndy| := div_pos hh2 hndypos
      have htV : 0 < bounds.width / 2 / |ndx| := div_pos hw2 hndxpos
      have ht : minInf (divInf (bounds.height / 2) |ndy|) (divInf (bounds.width / 2) |ndx|)
          = some (min (bounds.height / 2 / |ndy|) (bounds.width / 2 / |ndx|)) := by
        unfold divInf
        rw [if_neg hndyne, if_neg hndxne]
        rfl
      have htpos : 0 < min (bounds.height / 2 / |ndy|) (bounds.width / 2 / |ndx|) :=
        lt_min htH htV
      refine ⟨min (bounds.height / 2 / |ndy|) (bounds.width / 2 / |ndx|), htpos, ht,
        by rw [hrw, ht], ?_⟩
      rcases min_cases (bounds.height / 2 / |ndy|) (bounds.width / 2 / |ndx|) with
        ⟨hmeq, hmle⟩ | ⟨hmeq, hmlt⟩
      · right
        constructor
        · rw [abs_mul, abs_of_pos htpos, hmeq, mul_comm]
          exact div_mul_cancel₀ _ hndyne
        · rw [abs_mul, abs_of_pos htpos, hmeq]
          calc |ndx| * (bounds.height / 2 / |ndy|)
              ≤ |ndx| * (bounds.width / 2 / |ndx|) :=
                mul_le_mul_of_nonneg_left hmle (abs_nonneg _)
            _ = bounds.width / 2 := by rw [mul_comm]; exact div_mul_cancel₀ _ hndxne
      · left
        constructor
        · rw [abs_mul, abs_of_pos htpos, hmeq, mul_comm]
          exact div_mul_cancel₀ _ hndxne
        · rw [abs_mul, abs_of_pos htpos, hmeq]
          calc |ndy| * (bounds.width / 2 / |ndx|)
              ≤ |ndy| * (bounds.height / 2 / |ndy|) :=
                mul_le_mul_of_nonneg_left (le_of_lt hmlt) (abs_nonneg _)
            _ = bounds.height / 2 := by rw [mul_comm]; exact div_mul_cancel₀ _ hndyne

theorem findClosestPoints_eq (sb tb : Topolizer.Bounds ℝ) :
    findClosestPoints sb tb
      = (findBoundaryIntersection sb (sb.x + sb.width / 2, sb.y + sb.height / 2)
           (tb.x + tb.width / 2 - (sb.x + sb.width / 2))
           (tb.y + tb.height / 2 - (sb.y + sb.height / 2)),
         findBoundaryIntersection tb (tb.x + tb.width / 2, tb.y + tb.height / 2)
           (-(tb.x + tb.width / 2 - (sb.x + sb.width / 2)))
           (-(tb.y + tb.height / 2 - (sb.y + sb.height / 2)))) := rfl

theorem findBoundaryIntersection_zero_dir (bounds : Topolizer.Bounds ℝ) (center : ℝ × ℝ)
    (dx dy : ℝ) (hdx : dx = 0) (hdy : dy = 0) :
    findBoundaryIntersection bounds center dx dy = center := by
  subst hdx hdy
  unfold findBoundaryIntersection
  rw [if_pos]
  norm_num

/-- C10: for a positive-size box and a nonzero direction the boundary
computation always yields a finite point: the minimum of the two edge
parameters is a `some` even when one division has a zero denominator
(`Infinity` in JS), and in the exactly-horizontal (`dy = 0`) and
exactly-vertical (`dx = 0`) cases the returned point is the finite
vertical-edge, resp. horizontal-edge, crossing. -/
theorem boundaryIntersection_finite (bounds : Topolizer.Bounds ℝ) (center : ℝ × ℝ)
    (dx dy : ℝ) (hw : 0 < bounds.width) (hh : 0 < bounds.height)
    (hne : ¬ (dx = 0 ∧ dy = 0)) :
    (minInf (divInf (bounds.height / 2) |dy / Real.sqrt (dx * dx + dy * dy)|)
            (divInf (bounds.width / 2) |dx / Real.sqrt (dx * dx + dy * dy)|)).isSome = true
    ∧ (dy = 0 → findBoundaryIntersection bounds center dx dy
        = (center.1 + (if 0 < dx then bounds.width / 2 else -(bounds.width / 2)),
           center.2))
    ∧ (dx = 0 → findBoundaryIntersection bounds center dx dy
        = (center.1,
           center.2 + (if 0 < dy then bounds.height / 2 else -(bounds.height / 2)))) := by
  obtain ⟨t, htpos, ht, heq, hb⟩ :=
    findBoundaryIntersection_spec bounds center dx dy hw hh hne
  refine ⟨by rw [ht]; rfl, ?_, ?_⟩
  · intro hdy
    have hdx : dx ≠ 0 := fun hc => hne ⟨hc, hdy⟩
    subst hdy
    have habs : Real.sqrt (dx * dx + 0 * 0) = |dx| := by
      rw [mul_zero, add_zero, Real.sqrt_mul_self_eq_abs]
    rw [habs] at ht heq
    have hz : (0 : ℝ) / |dx| = 0 := zero_div _
    rw [hz, abs_zero] at ht
    have h1 : abs (dx / abs dx) = 1 := by
      rw [abs_div, abs_abs, div_self (abs_ne_zero.mpr hdx)]
    rw [h1] at ht
    have ht' : t = bounds.width / 2 := by
      have : minInf (divInf (bounds.height / 2) 0) (divInf (bounds.width / 2) 1)
          = some (bounds.width / 2 / 1) := by
        unfold divInf
        rw [if_pos rfl, if_neg one_ne_zero]
        rfl
      rw [this] at ht
      injection ht with h
      rw [← h]
      norm_num
    subst ht'
    rw [heq, hz]
    have hsgn : dx / |dx| = if 0 < dx then 1 else -1 := by
      split_ifs with hpos
      · rw [abs_of_pos hpos, div_self hdx]
      · have hneg : dx < 0 := lt_of_le_of_ne (le_of_not_lt hpos) hdx
        rw [abs_of_neg hneg]
        field_simp
    rw [hsgn]
    split_ifs <;> norm_num
  · intro hdx
    have hdy : dy ≠ 0 := fun hc => hne ⟨hdx, hc⟩
    subst hdx
    have habs : Real.sqrt (0 * 0 + dy * dy) = |dy| := by
      rw [mul_zero, zero_add, Real.sqrt_mul_self_eq_abs]
    rw [habs] at ht heq
    have hz : (0 : ℝ) / |dy| = 0 := zero_div _
    rw [hz, abs_zero] at ht
    have h1 : abs (dy / abs dy) = 1 := by
      rw [abs_div, abs_abs, div_self (abs_ne_zero.mpr hdy)]
    rw [h1] at ht
    have ht' : t = bounds.height / 2 := by
      have : minInf (divInf (bounds.height / 2) 1) (divInf (bounds.width / 2) 0)
          = some (bounds.height / 2 / 1) := by
        unfold divInf
        rw [if_neg one_ne_zero, if_pos rfl]
        rfl
      rw [this] at ht
      injection ht with h
      rw [← h]
      norm_num
    subst ht'
    rw [heq, hz]
    have hsgn : dy / |dy| = if 0 < dy then 1 else -1 := by
      split_ifs with hpos
      · rw [abs_of_pos hpos, div_self hdy]
      · have hneg : dy < 0 := lt_of_le_of_ne (le_of_not_lt hpos) hdy
        rw [abs_of_neg hneg]
        field_simp
    rw [hsgn]
    split_ifs <;> norm_num

/-- Witness for `boundaryIntersection_finite`: the (0,0,50,50) rect box
with the exactly-horizontal direction (200, 0). -/
theorem boundaryIntersection_finite_witness :
    (minInf (divInf ((50:ℝ) / 2) |0 / Real.sqrt (200 * 200 + 0 * 0)|)
            (divInf ((50:ℝ) / 2) |200 / Real.sqrt (200 * 200 + 0 * 0)|)).isSome = true
    ∧ ((0:ℝ) = 0 → findBoundaryIntersection
        ⟨0, 0, 50, 50, 0, 50, 0, 50, 25, 25⟩ (25, 25) 200 0
        = ((25:ℝ) + (if (0:ℝ) < 200 then (50:ℝ) / 2 else -((50:ℝ) / 2)), (25:ℝ))) := by
  have h := boundaryIntersection_finite ⟨0, 0, 50, 50, 0, 50, 0, 50, 25, 25⟩ (25, 25) 200 0
    (by norm_num) (by norm_num) (by norm_num)
  exact ⟨h.1, h.2.1⟩

/-- C1: for positive-size boxes, each connection anchor is the point
where the ray from the shape's own center toward the other shape's
center exits the shape's rectangle — the anchor sits at the finite exit
parameter `min(halfHeight/|sinθ|, halfWidth/|cosθ|)` (with `(cosθ, sinθ)`
the normalized direction and JS `Infinity` semantics for a zero
denominator) along the unit direction, exactly on the box boundary; the
target anchor uses the reversed direction; coincident centers return the
centers themselves; and for the rects (0,0,50,50) and (200,0,50,50) the
anchors are (50,25) and (200,25). -/
theorem connection_anchor_spec (sb tb : Topolizer.Bounds ℝ) (dxv dyv : ℝ)
    (hw1 : 0 < sb.width) (hh1 : 0 < sb.height)
    (hw2 : 0 < tb.width) (hh2 : 0 < tb.height)
    (hdx : dxv = tb.x + tb.width / 2 - (sb.x + sb.width / 2))
    (hdy : dyv = tb.y + tb.height / 2 - (sb.y + sb.height / 2)) :
    (¬ (dxv = 0 ∧ dyv = 0) →
      ∃ ts : ℝ, 0 < ts
        ∧ minInf (divInf (sb.height / 2) |dyv / Real.sqrt (dxv * dxv + dyv * dyv)|)
                 (divInf (sb.width / 2) |dxv / Real.sqrt (dxv * dxv + dyv * dyv)|) = some ts
        ∧ (findClosestPoints sb tb).1
            = (sb.x + sb.width / 2 + dxv / Real.sqrt (dxv * dxv + dyv * dyv) * ts,
               sb.y + sb.height / 2 + dyv / Real.sqrt (dxv * dxv + dyv * dyv) * ts)
        ∧ ((|dxv / Real.sqrt (dxv * dxv + dyv * dyv) * ts| = sb.width / 2
              ∧ |dyv / Real.sqrt (dxv * dxv + dyv * dyv) * ts| ≤ sb.height / 2)
           ∨ (|dyv / Real.sqrt (dxv * dxv + dyv * dyv) * ts| = sb.height / 2
              ∧ |dxv / Real.sqrt (dxv * dxv + dyv * dyv) * ts| ≤ sb.width / 2)))
    ∧ (¬ (dxv = 0 ∧ dyv = 0) →
      ∃ tt : ℝ, 0 < tt
        ∧ minInf (divInf (tb.height / 2) |(-dyv) / Real.sqrt (-dxv * -dxv + -dyv * -dyv)|)
                 (divInf (tb.width / 2) |(-dxv) / Real.sqrt (-dxv * -dxv + -dyv * -dyv)|)
            = some tt
        ∧ (findClosestPoints sb tb).2
            = (tb.x + tb.width / 2 + -dxv / Real.sqrt (-dxv * -dxv + -dyv * -dyv) * tt,
               tb.y + tb.height / 2 + -dyv / Real.sqrt (-dxv * -dxv + -dyv * -dyv) * tt)
        ∧ ((|(-dxv) / Real.sqrt (-dxv * -dxv + -dyv * -dyv) * tt| = tb.width / 2
              ∧ |(-dyv) / Real.sqrt (-dxv * -dxv + -dyv * -dyv) * tt| ≤ tb.height / 2)
           ∨ (|(-dyv) / Real.sqrt (-dxv * -dxv + -dyv * -dyv) * tt| = tb.height / 2
              ∧ |(-dxv) / Real.sqrt (-dxv * -dxv + -dyv * -dyv) * tt| ≤ tb.width / 2)))
    ∧ (dxv = 0 ∧ dyv = 0 →
        findClosestPoints sb tb
          = ((sb.x + sb.width / 2, sb.y + sb.height / 2),
             (tb.x + tb.width / 2, tb.y + tb.height / 2)))
    ∧ (∀ b1 b2 : Topolizer.Bounds ℝ,
        Topolizer.getShapeBounds (Topolizer.FactoryShape.rect (0:ℝ) 0 50 50) = some b1 →
        Topolizer.getShapeBounds (Topolizer.FactoryShape.rect (200:ℝ) 0 50 50) = some b2 →
        findClosestPoints b1 b2 = ((50, 25), (200, 25))) := by
  subst hdx hdy
  refine ⟨?_, ?_, ?_, ?_⟩
  · intro hne
    obtain ⟨ts, h1, h2, h3, h4⟩ := findBoundaryIntersection_spec sb
      (sb.x + sb.width / 2, sb.y + sb.height / 2) _ _ hw1 hh1 hne
    exact ⟨ts, h1, h2, by rw [findClosestPoints_eq]; exact h3, h4⟩
  · intro hne
    have hne' : ¬ (-(tb.x + tb.width / 2 - (sb.x + sb.width / 2)) = 0
        ∧ -(tb.y + tb.height / 2 - (sb.y + sb.height / 2)) = 0) := by
      rw [neg_eq_zero, neg_eq_zero]
      exact hne
    obtain ⟨tt, h1, h2, h3, h4⟩ := findBoundaryIntersection_spec tb
      (tb.x + tb.width / 2, tb.y + tb.height / 2) _ _ hw2 hh2 hne'
    exact ⟨tt, h1, h2, by rw [findClosestPoints_eq]; exact h3, h4⟩
  · rintro ⟨hx0, hy0⟩
    rw [findClosestPoints_eq, findBoundaryIntersection_zero_dir _ _ _ _ hx0 hy0,
      findBoundaryIntersection_zero_dir _ _ _ _ (by rw [hx0, neg_zero]) (by rw [hy0, neg_zero])]
  · intro b1 b2 h1 h2
    have hb1 : b1 = ⟨0, 0, 50, 50, 0, 0 + 50, 0, 0 + 50, 0 + 50 / 2, 0 + 50 / 2⟩ := by
      rw [Topolizer.getShapeBounds] at h1
      injection h1 with h
      rw [← h]
    have hb2 : b2 = ⟨200, 0, 50, 50, 200, 200 + 50, 0, 0 + 50, 200 + 50 / 2, 0 + 50 / 2⟩ := by
      rw [Topolizer.getShapeBounds] at h2
      injection h2 with h
      rw [← h]
    subst hb1 hb2
    have hs : Real.sqrt (40000:ℝ) = 200 := by
      rw [show (40000:ℝ) = 200 ^ 2 by norm_num]
      exact Real.sqrt_sq (by norm_num)
    rw [findClosestPoints_eq]
    unfold findBoundaryIntersection divInf minInf
    norm_num [hs]

/-- Witness for `connection_anchor_spec`: the scenario boxes
(0,0,50,50) and (200,0,50,50), direction (200, 0). -/
theorem connection_anchor_spec_witness :
    ∃ ts : ℝ, 0 < ts
      ∧ minInf (divInf ((50:ℝ) / 2) |(0:ℝ) / Real.sqrt (200 * 200 + 0 * 0)|)
               (divInf ((50:ℝ) / 2) |(200:ℝ) / Real.sqrt (200 * 200 + 0 * 0)|) = some ts
      ∧ (findClosestPoints ⟨0, 0, 50, 50, 0, 50, 0, 50, 25, 25⟩
           ⟨200, 0, 50, 50, 200, 250, 0, 50, 225, 25⟩).1
          = ((0:ℝ) + 50 / 2 + 200 / Real.sqrt (200 * 200 + 0 * 0) * ts,
             (0:ℝ) + 50 / 2 + 0 / Real.sqrt (200 * 200 + 0 * 0) * ts)
      ∧ ((|(200:ℝ) / Real.sqrt (200 * 200 + 0 * 0) * ts| = 50 / 2
            ∧ |(0:ℝ) / Real.sqrt (200 * 200 + 0 * 0) * ts| ≤ 50 / 2)
         ∨ (|(0:ℝ) / Real.sqrt (200 * 200 + 0 * 0) * ts| = 50 / 2
            ∧ |(200:ℝ) / Real.sqrt (200 * 200 + 0 * 0) * ts| ≤ 50 / 2)) :=
  (connection_anchor_spec ⟨0, 0, 50, 50, 0, 50, 0, 50, 25, 25⟩
    ⟨200, 0, 50, 50, 200, 250, 0, 50, 225, 25⟩ 200 0
    (by norm_num) (by norm_num) (by norm_num) (by norm_num)
    (by norm_num) (by norm_num)).1 (by norm_num)

theorem findFirst_updateFirst_self' {β : Type} (p : β → Bool) (f : β → β) (l : List β)
    (e : β) (hfind : Topolizer.findFirst p l = some e) (hfp : p (f e) = true) :
    Topolizer.findFirst p (Topolizer.updateFirst p f l) = some (f e) := by
  induction l with
  | nil => simp [Topolizer.findFirst] at hfind
  | cons a rest ih =>
    by_cases hpa : p a = true
    · simp [Topolizer.findFirst, hpa] at hfind
      subst hfind
      simp [Topolizer.updateFirst, Topolizer.findFirst, hpa, hfp]
    · have hpa' : p a = false := by simpa using hpa
      simp [Topolizer.findFirst, hpa'] at hfind
      simp [Topolizer.updateFirst, Topolizer.findFirst, hpa', ih hfind]

theorem findFirst_updateFirst_ne' {β : Type} (p q : β → Bool) (f : β → β) (l : List β)
    (hpq : ∀ a, q a = true → p a = false) (hfq : ∀ a, q (f a) = q a) :
    Topolizer.findFirst q (Topolizer.updateFirst p f l) = Topolizer.findFirst q l := by
  induction l with
  | nil => rfl
  | cons a rest ih =>
    by_cases hpa : p a = true
    · have hqa : q a = false := by
        by_cases hq : q a = true
        · rw [hpq a hq] at hpa; exact absurd hpa (by simp)
        · simpa using hq
      have hqfa : q (f a) = false := by rw [hfq a, hqa]
      simp [Topolizer.updateFirst, Topolizer.findFirst, hpa, hqa, hqfa]
    · have hpa' : p a = false := by simpa using hpa
      simp only [Topolizer.updateFirst, hpa', Bool.false_eq_true, if_false,
        Topolizer.findFirst]
      by_cases hq : q a = true <;> simp [hq, ih]

theorem repositionEndLabel_id (l : CMLabel) (c fb : ℝ × ℝ) :
    (repositionEndLabel l c fb).id = l.id := rfl

theorem findLabel_updateLabelFirst_other (sc : CMScene) (lid' : String)
    (f : CMLabel → CMLabel) (hf : ∀ l, (f l).id = l.id) (lid : String) (h : lid ≠ lid') :
    findLabel (updateLabelFirst sc lid' f) lid = findLabel sc lid := by
  unfold findLabel updateLabelFirst
  refine findFirst_updateFirst_ne' _ _ _ _ ?_ ?_
  · intro a ha
    have h1 : a.id = lid := by simpa using ha
    rw [h1]
    simpa using h
  · intro a
    simp [hf a]

theorem findLabel_updateLabelFirst_self (sc : CMScene) (lid : String)
    (f : CMLabel → CMLabel) (l : CMLabel) (hfind : findLabel sc lid = some l)
    (hf : (f l).id = l.id) :
    findLabel (updateLabelFirst sc lid f) lid = some (f l) := by
  have hlid : (l.id == lid) = true :=
    @Topolizer.findFirst_some CMLabel (fun l0 => l0.id == lid) sc.labels l hfind
  unfold findLabel updateLabelFirst
  exact findFirst_updateFirst_self' _ _ _ _ hfind (by rw [hf]; exact hlid)

theorem findLabel_updateLabelFirst_isSome (sc : CMScene) (lid' : String)
    (f : CMLabel → CMLabel) (hf : ∀ l, (f l).id = l.id) (lid : String)
    (h : (findLabel sc lid).isSome = true) :
    (findLabel (updateLabelFirst sc lid' f) lid).isSome = true := by
  by_cases he : lid = lid'
  · subst he
    obtain ⟨l, hl⟩ := Option.isSome_iff_exists.mp h
    rw [findLabel_updateLabelFirst_self sc lid f l hl (hf l)]
    rfl
  · rw [findLabel_updateLabelFirst_other sc lid' f hf lid he]
    exact h

theorem findLabel_maybeUpdateEndLabel_other (sc : CMScene) (lid? : Option String)
    (c fb : ℝ × ℝ) (lid : String) (h : lid? ≠ some lid) :
    findLabel (maybeUpdateEndLabel sc lid? c fb) lid = findLabel sc lid := by
  unfold maybeUpdateEndLabel
  split_ifs with ht
  · cases lid? with
    | none => rfl
    | some lid2 =>
      simp only
      cases hfl : findLabel sc lid2 with
      | none => simp [hfl]
      | some l2 =>
        simp only [hfl]
        refine findLabel_updateLabelFirst_other sc lid2
          (fun l => repositionEndLabel l c fb) (fun l => rfl) lid ?_
        intro hc
        exact h (by rw [hc])
  · rfl

theorem findLabel_maybeUpdateEndLabel_isSome (sc : CMScene) (lid? : Option String)
    (c fb : ℝ × ℝ) (lid : String) (h : (findLabel sc lid).isSome = true) :
    (findLabel (maybeUpdateEndLabel sc lid? c fb) lid).isSome = true := by
  unfold maybeUpdateEndLabel
  split_ifs with ht
  · cases lid? with
    | none => exact h
    | some lid2 =>
      simp only
      cases hfl : findLabel sc lid2 with
      | none => simp [hfl, h]
      | some l2 =>
        simp only [hfl]
        exact findLabel_updateLabelFirst_isSome sc lid2
          (fun l => repositionEndLabel l c fb) (fun l => rfl) lid h
  · exact h

theorem truthy_some {s : String} (h : s ≠ "") : truthy (some s) = true := by
  show (if s = "" then false else true) = true
  rw [if_neg h]

theorem maybeUpdateEndLabel_self (sc : CMScene) (lid : String) (c fb : ℝ × ℝ)
    (l : CMLabel) (hne : lid ≠ "") (hfind : findLabel sc lid = some l) :
    findLabel (maybeUpdateEndLabel sc (some lid) c fb) lid
      = some (repositionEndLabel l c fb) := by
  unfold maybeUpdateEndLabel
  rw [if_pos (truthy_some hne)]
  simp only [hfind]
  exact findLabel_updateLabelFirst_self sc lid _ l hfind rfl

theorem maybeUpdateCenterLabel_self (sc : CMScene) (clid : String) (pt : ℝ × ℝ)
    (hne : clid ≠ "") (h : (findLabel sc clid).isSome = true) :
    ∃ cl : CMLabel, findLabel sc clid = some cl ∧
      findLabel (maybeUpdateCenterLabel sc (some clid) pt) clid
        = some { cl with x := pt.1, y := pt.2 } := by
  obtain ⟨cl, hcl⟩ := Option.isSome_iff_exists.mp h
  refine ⟨cl, hcl, ?_⟩
  unfold maybeUpdateCenterLabel
  rw [if_pos (truthy_some hne)]
  simp only [hcl]
  exact findLabel_updateLabelFirst_self sc clid _ cl hcl rfl

theorem cosSinAtan2_spec (y x : ℝ) :
    (cosSinAtan2 y x).1 ^ 2 + (cosSinAtan2 y x).2 ^ 2 = 1
    ∧ (cosSinAtan2 y x).1 * y = (cosSinAtan2 y x).2 * x
    ∧ 0 ≤ (cosSinAtan2 y x).1 * x + (cosSinAtan2 y x).2 * y := by
  unfold cosSinAtan2
  by_cases h : x = 0 ∧ y = 0
  · rw [if_pos h]
    obtain ⟨hx, hy⟩ := h
    subst hx
    subst hy
    norm_num
  · rw [if_neg h]
    have hL2 : 0 < x * x + y * y := sq_sum_pos h
    have hL : 0 < Real.sqrt (x * x + y * y) := Real.sqrt_pos.mpr hL2
    have hLne : Real.sqrt (x * x + y * y) ≠ 0 := ne_of_gt hL
    have hsq : Real.sqrt (x * x + y * y) * Real.sqrt (x * x + y * y) = x * x + y * y :=
      Real.mul_self_sqrt (le_of_lt hL2)
    refine ⟨?_, ?_, ?_⟩
    · field_simp
      ring
    · field_simp
      ring
    · have heq : x / Real.sqrt (x * x + y * y) * x + y / Real.sqrt (x * x + y * y) * y
          = (x * x + y * y) / Real.sqrt (x * x + y * y) := by
        field_simp
      rw [heq]
      positivity

theorem findLabel_maybeUpdateCenterLabel_other (sc : CMScene) (lid? : Option String)
    (pt : ℝ × ℝ) (lid : String) (h : lid? ≠ some lid) :
    findLabel (maybeUpdateCenterLabel sc lid? pt) lid = findLabel sc lid := by
  unfold maybeUpdateCenterLabel
  split_ifs with ht
  · cases lid? with
    | none => rfl
    | some lid2 =>
      simp only
      cases hfl : findLabel sc lid2 with
      | none => simp [hfl]
      | some l2 =>
        simp only [hfl]
        refine findLabel_updateLabelFirst_other sc lid2
          (fun l => { l with x := pt.1, y := pt.2 }) (fun l => rfl) lid ?_
        intro hc
        exact h (by rw [hc])
  · rfl

theorem repositionEndLabel_stored (l : CMLabel) (c fb : ℝ × ℝ) (ocx ocy : ℝ)
    (hx : l.ccx = some ocx) (hy : l.ccy = some ocy) :
    repositionEndLabel l c fb
      = { l with ccx := some c.1, ccy := some c.2,
                 x := c.1 + (cosSinAtan2 (l.y - ocy) (l.x - ocx)).1 * radiusOrDefault l.radius,
                 y := c.2 + (cosSinAtan2 (l.y - ocy) (l.x - ocx)).2 * radiusOrDefault l.radius } := by
  unfold repositionEndLabel
  simp only [hx, hy]

theorem repositionEndLabel_fallback (l : CMLabel) (c fb : ℝ × ℝ)
    (h : l.ccx = none ∨ l.ccy = none) :
    repositionEndLabel l c fb
      = { l with ccx := some c.1, ccy := some c.2,
                 x := c.1 + (cosSinAtan2 fb.2 fb.1).1 * radiusOrDefault l.radius,
                 y := c.2 + (cosSinAtan2 fb.2 fb.1).2 * radiusOrDefault l.radius } := by
  unfold repositionEndLabel
  rcases h with h | h
  · simp only [h]
  · cases hx : l.ccx with
    | none => simp only [hx]
    | some ox => simp only [hx, h]

/-- C8: when a shape with an attached connection end-label moves and
`updateShapeConnections` runs for its (single) incident connection, the
end-label is placed back on the constraint circle of its stored radius
around the owning shape's newly computed center, at the bearing of the
label's last absolute position relative to the previously stored old
center (expressed as collinearity and same orientation); the raw
connection direction is used only when no old center was stored; and the
center label is always placed at the raw midpoint of the two recomputed
anchor points. -/
theorem endLabel_reposition_spec (sc : CMScene) (sid cid : String) (s : CMShape)
    (conn : CMConn) (ss ts : CMShape) (sb tb : Topolizer.Bounds ℝ)
    (hs : findCMShape sc sid = some s) (hconn : s.connections = [cid])
    (hc : findConn sc cid = some conn)
    (hss : findCMShape sc conn.source = some ss)
    (hts : findCMShape sc conn.target = some ts)
    (hsb : Topolizer.getShapeBounds ss.geom = some sb)
    (htb : Topolizer.getShapeBounds ts.geom = some tb) :
    (∀ lid l ocx ocy, conn.sourceLabelId = some lid → lid ≠ "" →
      conn.targetLabelId ≠ some lid → conn.centerLabelId ≠ some lid →
      findLabel sc lid = some l → l.ccx = some ocx → l.ccy = some ocy →
      ∃ l', findLabel (updateShapeConnections sc sid) lid = some l'
        ∧ l'.ccx = some (sb.x + sb.width / 2) ∧ l'.ccy = some (sb.y + sb.height / 2)
        ∧ (l'.x - (sb.x + sb.width / 2)) ^ 2 + (l'.y - (sb.y + sb.height / 2)) ^ 2
            = radiusOrDefault l.radius ^ 2
        ∧ (l'.x - (sb.x + sb.width / 2)) * (l.y - ocy)
            = (l'.y - (sb.y + sb.height / 2)) * (l.x - ocx)
        ∧ (0 ≤ radiusOrDefault l.radius →
            0 ≤ (l'.x - (sb.x + sb.width / 2)) * (l.x - ocx)
               + (l'.y - (sb.y + sb.height / 2)) * (l.y - ocy)))
    ∧ (∀ lid l, conn.sourceLabelId = some lid → lid ≠ "" →
      conn.targetLabelId ≠ some lid → conn.centerLabelId ≠ some lid →
      findLabel sc lid = some l → (l.ccx = none ∨ l.ccy = none) →
      ∃ l', findLabel (updateShapeConnections sc sid) lid = some l'
        ∧ (l'.x - (sb.x + sb.width / 2)) ^ 2 + (l'.y - (sb.y + sb.height / 2)) ^ 2
            = radiusOrDefault l.radius ^ 2
        ∧ (l'.x - (sb.x + sb.width / 2))
              * ((tb.y + tb.height / 2) - (sb.y + sb.height / 2))
            = (l'.y - (sb.y + sb.height / 2))
              * ((tb.x + tb.width / 2) - (sb.x + sb.width / 2)))
    ∧ (∀ clid cl, conn.centerLabelId = some clid → clid ≠ "" →
      findLabel sc clid = some cl →
      ∃ cl', findLabel (updateShapeConnections sc sid) clid = some cl'
        ∧ cl'.x = ((findClosestPoints sb tb).1.1 + (findClosestPoints sb tb).2.1) / 2
        ∧ cl'.y = ((findClosestPoints sb tb).1.2 + (findClosestPoints sb tb).2.2) / 2) := by
  have hupd : updateShapeConnections sc sid
      = maybeUpdateCenterLabel
          (maybeUpdateEndLabel
            (maybeUpdateEndLabel (updateConnLine sc cid (findClosestPoints sb tb))
              conn.sourceLabelId
              (sb.x + sb.width / 2, sb.y + sb.height / 2)
              ((tb.x + tb.width / 2) - (sb.x + sb.width / 2),
               (tb.y + tb.height / 2) - (sb.y + sb.height / 2)))
            conn.targetLabelId
            (tb.x + tb.width / 2, tb.y + tb.height / 2)
            ((sb.x + sb.width / 2) - (tb.x + tb.width / 2),
             (sb.y + sb.height / 2) - (tb.y + tb.height / 2)))
          conn.centerLabelId
          (((findClosestPoints sb tb).1.1 + (findClosestPoints sb tb).2.1) / 2,
           ((findClosestPoints sb tb).1.2 + (findClosestPoints sb tb).2.2) / 2) := by
    unfold updateShapeConnections
    simp only [hs]
    rw [hconn]
    show updateOneConnection sc cid = _
    unfold updateOneConnection
    simp only [hc, hss, hts, hsb, htb]
  refine ⟨?_, ?_, ?_⟩
  · intro lid l ocx ocy hlid hne htne hcne hl hocx hocy
    rw [hupd, hlid]
    have h0 : findLabel (updateConnLine sc cid (findClosestPoints sb tb)) lid = some l := hl
    have h2 := maybeUpdateEndLabel_self (updateConnLine sc cid (findClosestPoints sb tb))
      lid (sb.x + sb.width / 2, sb.y + sb.height / 2)
      ((tb.x + tb.width / 2) - (sb.x + sb.width / 2),
       (tb.y + tb.height / 2) - (sb.y + sb.height / 2)) l hne h0
    rw [findLabel_maybeUpdateCenterLabel_other _ _ _ _ hcne,
      findLabel_maybeUpdateEndLabel_other _ _ _ _ _ htne, h2,
      repositionEndLabel_stored l _ _ ocx ocy hocx hocy]
    obtain ⟨hu1, hu2, hu3⟩ := cosSinAtan2_spec (l.y - ocy) (l.x - ocx)
    refine ⟨_, rfl, rfl, rfl, ?_, ?_, ?_⟩
    · simp only
      calc (sb.x + sb.width / 2 + (cosSinAtan2 (l.y - ocy) (l.x - ocx)).1
              * radiusOrDefault l.radius - (sb.x + sb.width / 2)) ^ 2
            + (sb.y + sb.height / 2 + (cosSinAtan2 (l.y - ocy) (l.x - ocx)).2
              * radiusOrDefault l.radius - (sb.y + sb.height / 2)) ^ 2
          = ((cosSinAtan2 (l.y - ocy) (l.x - ocx)).1 ^ 2
             + (cosSinAtan2 (l.y - ocy) (l.x - ocx)).2 ^ 2)
            * radiusOrDefault l.radius ^ 2 := by ring
        _ = radiusOrDefault l.radius ^ 2 := by rw [hu1]; ring
    · simp only
      calc (sb.x + sb.width / 2 + (cosSinAtan2 (l.y - ocy) (l.x - ocx)).1
              * radiusOrDefault l.radius - (sb.x + sb.width / 2)) * (l.y - ocy)
          = ((cosSinAtan2 (l.y - ocy) (l.x - ocx)).1 * (l.y - ocy))
            * radiusOrDefault l.radius := by ring
        _ = ((cosSinAtan2 (l.y - ocy) (l.x - ocx)).2 * (l.x - ocx))
            * radiusOrDefault l.radius := by rw [hu2]
        _ = (sb.y + sb.height / 2 + (cosSinAtan2 (l.y - ocy) (l.x - ocx)).2
              * radiusOrDefault l.radius - (sb.y + sb.height / 2)) * (l.x - ocx) := by ring
    · intro hr
      simp only
      have heq : (sb.x + sb.width / 2 + (cosSinAtan2 (l.y - ocy) (l.x - ocx)).1
              * radiusOrDefault l.radius - (sb.x + sb.width / 2)) * (l.x - ocx)
            + (sb.y + sb.height / 2 + (cosSinAtan2 (l.y - ocy) (l.x - ocx)).2
              * radiusOrDefault l.radius - (sb.y + sb.height / 2)) * (l.y - ocy)
          = radiusOrDefault l.radius
            * ((cosSinAtan2 (l.y - ocy) (l.x - ocx)).1 * (l.x - ocx)
               + (cosSinAtan2 (l.y - ocy) (l.x - ocx)).2 * (l.y - ocy)) := by ring
      rw [heq]
      exact mul_nonneg hr hu3
  · intro lid l hlid hne htne hcne hl hfall
    rw [hupd, hlid]
    have h0 : findLabel (updateConnLine sc cid (findClosestPoints sb tb)) lid = some l := hl
    have h2 := maybeUpdateEndLabel_self (updateConnLine sc cid (findClosestPoints sb tb))
      lid (sb.x + sb.width / 2, sb.y + sb.height / 2)
      ((tb.x + tb.width / 2) - (sb.x + sb.width / 2),
       (tb.y + tb.height / 2) - (sb.y + sb.height / 2)) l hne h0
    rw [findLabel_maybeUpdateCenterLabel_other _ _ _ _ hcne,
      findLabel_maybeUpdateEndLabel_other _ _ _ _ _ htne, h2,
      repositionEndLabel_fallback l _ _ hfall]
    obtain ⟨hu1, hu2, -⟩ := cosSinAtan2_spec
      ((tb.y + tb.height / 2) - (sb.y + sb.height / 2))
      ((tb.x + tb.width / 2) - (sb.x + sb.width / 2))
    refine ⟨_, rfl, ?_, ?_⟩
    · simp only
      calc (sb.x + sb.width / 2
              + (cosSinAtan2 ((tb.y + tb.height / 2) - (sb.y + sb.height / 2))
                  ((tb.x + tb.width / 2) - (sb.x + sb.width / 2))).1
              * radiusOrDefault l.radius - (sb.x + sb.width / 2)) ^ 2
            + (sb.y + sb.height / 2
              + (cosSinAtan2 ((tb.y + tb.height / 2) - (sb.y + sb.height / 2))
                  ((tb.x + tb.width / 2) - (sb.x + sb.width / 2))).2
              * radiusOrDefault l.radius - (sb.y + sb.height / 2)) ^ 2
          = ((cosSinAtan2 ((tb.y + tb.height / 2) - (sb.y + sb.height / 2))
                  ((tb.x + tb.width / 2) - (sb.x + sb.width / 2))).1 ^ 2
             + (cosSinAtan2 ((tb.y + tb.height / 2) - (sb.y + sb.height / 2))
                  ((tb.x + tb.width / 2) - (sb.x + sb.width / 2))).2 ^ 2)
            * radiusOrDefault l.radius ^ 2 := by ring
        _ = radiusOrDefault l.radius ^ 2 := by rw [hu1]; ring
    · simp only
      calc (sb.x + sb.width / 2
              + (cosSinAtan2 ((tb.y + tb.height / 2) - (sb.y + sb.height / 2))
                  ((tb.x + tb.width / 2) - (sb.x + sb.width / 2))).1
              * radiusOrDefault l.radius - (sb.x + sb.width / 2))
            * ((tb.y + tb.height / 2) - (sb.y + sb.height / 2))
          = ((cosSinAtan2 ((tb.y + tb.height / 2) - (sb.y + sb.height / 2))
                  ((tb.x + tb.width / 2) - (sb.x + sb.width / 2))).1
              * ((tb.y + tb.height / 2) - (sb.y + sb.height / 2)))
            * radiusOrDefault l.radius := by ring
        _ = ((cosSinAtan2 ((tb.y + tb.height / 2) - (sb.y + sb.height / 2))
                  ((tb.x + tb.width / 2) - (sb.x + sb.width / 2))).2
              * ((tb.x + tb.width / 2) - (sb.x + sb.width / 2)))
            * radiusOrDefault l.radius := by rw [hu2]
        _ = (sb.y + sb.height / 2
              + (cosSinAtan2 ((tb.y + tb.height / 2) - (sb.y + sb.height / 2))
                  ((tb.x + tb.width / 2) - (sb.x + sb.width / 2))).2
              * radiusOrDefault l.radius - (sb.y + sb.height / 2))
            * ((tb.x + tb.width / 2) - (sb.x + sb.width / 2)) := by ring
  · intro clid cl hclid hne hcl
    rw [hupd, hclid]
    have h0 : (findLabel (updateConnLine sc cid (findClosestPoints sb tb)) clid).isSome
        = true := by
      show (findLabel sc clid).isSome = true
      rw [hcl]
      rfl
    have h1 := findLabel_maybeUpdateEndLabel_isSome
      (updateConnLine sc cid (findClosestPoints sb tb)) conn.sourceLabelId
      (sb.x + sb.width / 2, sb.y + sb.height / 2)
      ((tb.x + tb.width / 2) - (sb.x + sb.width / 2),
       (tb.y + tb.height / 2) - (sb.y + sb.height / 2)) clid h0
    have h2 := findLabel_maybeUpdateEndLabel_isSome _ conn.targetLabelId
      (tb.x + tb.width / 2, tb.y + tb.height / 2)
      ((sb.x + sb.width / 2) - (tb.x + tb.width / 2),
       (sb.y + sb.height / 2) - (tb.y + tb.height / 2)) clid h1
    obtain ⟨cl0, -, hfinal⟩ := maybeUpdateCenterLabel_self _ clid
      (((findClosestPoints sb tb).1.1 + (findClosestPoints sb tb).2.1) / 2,
       ((findClosestPoints sb tb).1.2 + (findClosestPoints sb tb).2.2) / 2) hne h2
    exact ⟨_, hfinal, rfl, rfl⟩

/-- Witness for `endLabel_reposition_spec`: rects joined by
`connection-1`, whose source label sits at (10, 25) with stored old
center (5, 25) and radius 60. -/
theorem endLabel_reposition_spec_witness :
    ∃ l', findLabel (updateShapeConnections
        ⟨[⟨"shape-1", .rect 0 0 50 50, ["connection-1"]⟩,
          ⟨"shape-2", .rect 200 0 50 50, ["connection-1"]⟩],
         [⟨"connection-1", "shape-1", "shape-2", some "label-connection-1-source",
           some "label-connection-1-target", some "label-connection-1-center",
           50, 25, 200, 25⟩],
         [⟨"label-connection-1-source", 10, 25, some 5, some 25, some 60⟩,
          ⟨"label-connection-1-target", 165, 25, some 225, some 25, some 60⟩,
          ⟨"label-connection-1-center", 125, 25, none, none, none⟩]⟩
        "shape-1") "label-connection-1-source" = some l'
      ∧ l'.ccx = some ((0:ℝ) + 50 / 2) ∧ l'.ccy = some ((0:ℝ) + 50 / 2)
      ∧ (l'.x - ((0:ℝ) + 50 / 2)) ^ 2 + (l'.y - ((0:ℝ) + 50 / 2)) ^ 2
          = radiusOrDefault (some 60) ^ 2
      ∧ (l'.x - ((0:ℝ) + 50 / 2)) * ((25:ℝ) - 25)
          = (l'.y - ((0:ℝ) + 50 / 2)) * ((10:ℝ) - 5)
      ∧ (0 ≤ radiusOrDefault (some 60) →
          0 ≤ (l'.x - ((0:ℝ) + 50 / 2)) * ((10:ℝ) - 5)
             + (l'.y - ((0:ℝ) + 50 / 2)) * ((25:ℝ) - 25)) :=
  (endLabel_reposition_spec
    ⟨[⟨"shape-1", .rect 0 0 50 50, ["connection-1"]⟩,
      ⟨"shape-2", .rect 200 0 50 50, ["connection-1"]⟩],
     [⟨"connection-1", "shape-1", "shape-2", some "label-connection-1-source",
       some "label-connection-1-target", some "label-connection-1-center",
       50, 25, 200, 25⟩],
     [⟨"label-connection-1-source", 10, 25, some 5, some 25, some 60⟩,
      ⟨"label-connection-1-target", 165, 25, some 225, some 25, some 60⟩,
      ⟨"label-connection-1-center", 125, 25, none, none, none⟩]⟩
    "shape-1" "connection-1"
    ⟨"shape-1", .rect 0 0 50 50, ["connection-1"]⟩
    ⟨"connection-1", "shape-1", "shape-2", some "label-connection-1-source",
     some "label-connection-1-target", some "label-connection-1-center", 50, 25, 200, 25⟩
    ⟨"shape-1", .rect 0 0 50 50, ["connection-1"]⟩
    ⟨"shape-2", .rect 200 0 50 50, ["connection-1"]⟩
    ⟨0, 0, 50, 50, 0, 0 + 50, 0, 0 + 50, 0 + 50 / 2, 0 + 50 / 2⟩
    ⟨200, 0, 50, 50, 200, 200 + 50, 0, 0 + 50, 200 + 50 / 2, 0 + 50 / 2⟩
    rfl rfl rfl rfl rfl rfl rfl).1
    "label-connection-1-source"
    ⟨"label-connection-1-source", 10, 25, some 5, some 25, some 60⟩
    5 25 rfl (by decide) (by decide) (by decide) rfl rfl rfl

end ConnClaims
